import Mathlib

/-!
Verification of the APC propeller analyzer (characteristic_generator.py and
thrust_lookup.py) against its natural-language specification.

Shallow embedding conventions:
* Python floats are modelled as exact rationals (`ℚ`); `numpy.pi` is modelled
  as the exact rational value of the IEEE-754 double `3.141592653589793`.
* `pandas.Series.interpolate(method='polynomial', order=k)` is an external
  library routine; it is modelled as an arbitrary column transformation
  (a parameter `interp2` / `interp3 : List (Option ℚ) → List (Option ℚ)`),
  so theorems about the generator hold for every length-preserving
  transformation, and concrete evaluations instantiate it with the identity
  on columns that contain no missing value (where pandas is the identity).
* `scipy.optimize.curve_fit` / `fsolve` are external numerical routines;
  they are parameters of the solver (`FitFns`), with `none` modelling a
  raised exception.
* `numpy.interp` is modelled by `npInterp` following its documented
  semantics for an increasing sample axis (piecewise-linear, clamping to the
  first/last value outside the sampled range).
* Helpers that live in char_plotter.py (not part of the sources) are either
  parameters (`diaInches`, `maxMech`) or modelled from the spec (`poly2`,
  `poly3`, `closestKey`), as marked in their doc comments.
-/

namespace APC

/-- numpy.pi: the exact rational value of the IEEE-754 double closest to π,
3.141592653589793 = 884279719003555 / 2^48. -/
def npPi : ℚ := 884279719003555 / 281474976710656

/-- Air density 1.225 kg/m³ (characteristic_generator.py line 91). -/
def rho : ℚ := 49 / 40

/-- Inches-to-meters conversion factor 0.0254. -/
def inchToM : ℚ := 254 / 10000

/-- One parsed line of a .dat performance file: columns
V, J, eta, CT, CP, P, Q, T (characteristic_generator.py line 62-63). -/
structure RawRow where
  V : ℚ
  J : ℚ
  eta : ℚ
  CT : ℚ
  CP : ℚ
  P : ℚ
  Q : ℚ
  T : ℚ
deriving DecidableEq

/-- A dataframe row after the outer merge with the full airspeed range:
missing physical quantities are `none` (NaN); the rpm column has been
re-assigned to the file's constant rpm. -/
structure MRow where
  V : ℚ
  J : Option ℚ
  eta : Option ℚ
  CT : Option ℚ
  CP : Option ℚ
  P : Option ℚ
  Q : Option ℚ
  T : Option ℚ
  rpm : ℚ
deriving DecidableEq

/-- A fully processed row: NaNs filled with 0 and the dimensionless
coefficients recomputed (characteristic_generator.py lines 87-109). -/
structure FRow where
  V : ℚ
  J : ℚ
  eta : ℚ
  CT : ℚ
  CP : ℚ
  P : ℚ
  Q : ℚ
  T : ℚ
  rpm : ℚ
  CQ : ℚ
deriving DecidableEq

/-- Replace all non-overlapping occurrences of `pat` by `rep`, scanning
left to right — the semantics of Python `str.replace`.  (Structural
recursion on a fuel bound so that concrete inputs reduce; each step
consumes at least one character, so `fuel = length` is enough.) -/
def replaceFuel (pat rep : List Char) : ℕ → List Char → List Char
  | 0, l => l
  | _ + 1, [] => []
  | fuel + 1, c :: cs =>
    if !pat.isEmpty && pat.isPrefixOf (c :: cs) then
      rep ++ replaceFuel pat rep fuel ((c :: cs).drop pat.length)
    else c :: replaceFuel pat rep fuel cs

/-- Python `s.replace(pat, rep)`. -/
def strReplace (s pat rep : String) : String :=
  ⟨replaceFuel pat.data rep.data s.data.length s.data⟩

/-- Python `s.split(sep)` for a single-character separator: split at every
occurrence, keeping empty pieces. -/
def splitOnCharAux (sep : Char) : List Char → List Char → List (List Char)
  | acc, [] => [acc.reverse]
  | acc, c :: cs =>
    if c == sep then acc.reverse :: splitOnCharAux sep [] cs
    else splitOnCharAux sep (c :: acc) cs

/-- Python `s.split(sep)` entry point. -/
def splitOnChar (sep : Char) (s : String) : List (List Char) :=
  splitOnCharAux sep [] s.data

/-- Python `s.endswith(pat)`. -/
def strEndsWith (s pat : String) : Bool :=
  pat.data.isSuffixOf s.data

/-- Value of a list of decimal digits. -/
def digitsToNat (l : List Char) : ℕ :=
  l.foldl (fun a c => 10 * a + (c.toNat - 48)) 0

/-- A nonempty all-digit character list. -/
def isDigits (l : List Char) : Bool :=
  !l.isEmpty && l.all Char.isDigit

/-- Python `float(s)` on plain decimal literals: optional sign, then
`digits`, `digits.digits`, `digits.` or `.digits`.  (Exponent forms,
underscores, whitespace, inf/nan are outside the modelled input domain;
identifiers only ever carry plain decimal diameters.)  `none` models a
raised `ValueError`. -/
def pyFloat (s : String) : Option ℚ :=
  let sgnl : ℚ × List Char :=
    match s.data with
    | '-' :: r => (-1, r)
    | '+' :: r => (1, r)
    | l => (1, l)
  let ip := sgnl.2.takeWhile Char.isDigit
  let rest := sgnl.2.dropWhile Char.isDigit
  match rest with
  | [] => if ip.isEmpty then none else some (sgnl.1 * digitsToNat ip)
  | '.' :: fr =>
    if fr.all Char.isDigit && (!ip.isEmpty || !fr.isEmpty) then
      some (sgnl.1 * ((digitsToNat ip : ℚ) + (digitsToNat fr : ℚ) / 10 ^ fr.length))
    else none
  | _ => none

/-- Python `int(s)`: optional sign then decimal digits.  `none` models a
raised `ValueError`. -/
def pyInt (s : String) : Option ℤ :=
  match s.data with
  | '-' :: r => if isDigits r then some (-(digitsToNat r : ℤ)) else none
  | '+' :: r => if isDigits r then some ((digitsToNat r : ℤ)) else none
  | l => if isDigits l then some ((digitsToNat l : ℤ)) else none

/-- Diameter extraction from the folder name
(characteristic_generator.py lines 36-44):
`folder_name.split('P')[0][1:]`, dashes replaced by a decimal point, parsed
as a float and converted from inches to meters.  `none` models the caught
`ValueError` that makes the function return `(None, None)`. -/
def parseDiameter (folderName : String) : Option ℚ :=
  let ds : String := ⟨((splitOnChar 'P' folderName).headD []).drop 1⟩
  let ds2 := if ds.data.contains '-' then strReplace ds "-" "." else ds
  (pyFloat ds2).map (fun x => x * inchToM)

/-- `filename.replace('.dat', '')` (characteristic_generator.py line 58). -/
def stripDat (s : String) : String := strReplace s ".dat" ""

/-- Insert into a sorted list, keeping it sorted (the helper of
`sortBy`). -/
def insertLe {α : Type} (le : α → α → Bool) (a : α) : List α → List α
  | [] => [a]
  | b :: bs => if le a b then a :: b :: bs else b :: insertLe le a bs

/-- `DataFrame.sort_values`: an insertion sort by the given comparison.
Any correct sort models pandas here — the claims under verification only
depend on the result being ordered and a permutation of the input. -/
def sortBy {α : Type} (le : α → α → Bool) : List α → List α
  | [] => []
  | a :: as => insertLe le a (sortBy le as)

/-- The merge's filler row for an airspeed with no measured data: every
physical quantity NaN, rpm set by the post-merge column assignment. -/
def nullRow (r : ℚ) (v : ℚ) : MRow :=
  ⟨v, none, none, none, none, none, none, none, r⟩

/-- A measured row carried through the merge. -/
def rawToM (r : ℚ) (w : RawRow) : MRow :=
  ⟨w.V, some w.J, some w.eta, some w.CT, some w.CP, some w.P, some w.Q, some w.T, r⟩

/-- `pd.merge(all_speeds, data, on='V', how='outer').sort_values('V')`
followed by `data['rpm'] = rpm` (characteristic_generator.py lines 67-71):
every measured row is kept, every integer airspeed 0-100 that has no
measured row gets a NaN filler row, and the result is ordered by V. -/
def mergeSpeeds (r : ℚ) (rows : List RawRow) : List MRow :=
  let dataRows := rows.map (rawToM r)
  let missing := (List.range 101).filter
    (fun v : ℕ => !(dataRows.any (fun w => w.V == (v : ℚ))))
  let filler := missing.map (fun v : ℕ => nullRow r (v : ℚ))
  sortBy (fun a b => decide (a.V ≤ b.V)) (dataRows ++ filler)

/-- Column write-backs used to model per-column interpolation. -/
def setT (w : MRow) (t : Option ℚ) : MRow := { w with T := t }

/-- Column write-back for Q. -/
def setQ (w : MRow) (q : Option ℚ) : MRow := { w with Q := q }

/-- Column write-back for P. -/
def setP (w : MRow) (p : Option ℚ) : MRow := { w with P := p }

/-- The interpolation step (characteristic_generator.py lines 79-85):
T and Q through the order-2 transformation, P through the order-3 one.
The transformations themselves are parameters (external pandas/scipy
code). -/
def interpCols (interp2 interp3 : List (Option ℚ) → List (Option ℚ))
    (rows : List MRow) : List MRow :=
  let rows1 := List.zipWith setT rows (interp2 (rows.map MRow.T))
  let rows2 := List.zipWith setQ rows1 (interp2 (rows1.map MRow.Q))
  List.zipWith setP rows2 (interp3 (rows2.map MRow.P))

/-- `fillna(0)` on a single cell. -/
def orZero : Option ℚ → ℚ
  | none => 0
  | some x => x

/-- `data.fillna(0)` followed by the coefficient recomputation
(characteristic_generator.py lines 87-109): n = rpm/60, and
J, CT, CP are zero unless n > 0; CQ = CP/(2π); eta is zero unless CP > 0. -/
def finishRow (r D : ℚ) (w : MRow) : FRow :=
  let n := r / 60
  let T := orZero w.T
  let Q := orZero w.Q
  let P := orZero w.P
  let J := if 0 < n then w.V / (n * D) else 0
  let CT := if 0 < n then T / (rho * n ^ 2 * D ^ 4) else 0
  let CP := if 0 < n then P / (rho * n ^ 3 * D ^ 5) else 0
  let CQ := CP / (2 * npPi)
  let eta := if 0 < CP then CT * J / CP else 0
  ⟨w.V, J, eta, CT, CP, P, Q, T, r, CQ⟩

/-- The fully processed dataframe of one .dat file. -/
def fileFrame (interp2 interp3 : List (Option ℚ) → List (Option ℚ))
    (r D : ℚ) (rows : List RawRow) : List FRow :=
  (interpCols interp2 interp3 (mergeSpeeds r rows)).map (finishRow r D)

/-- The synthetic zero-RPM row at airspeed v
(characteristic_generator.py lines 124-129). -/
def zeroRow (v : ℚ) : FRow := ⟨v, 0, 0, 0, 0, 0, 0, 0, 0, 0⟩

/-- The synthetic zero-RPM curve over airspeeds 0-100. -/
def zeroFrame : List FRow := (List.range 101).map (fun v : ℕ => zeroRow (v : ℚ))

/-- The .dat files whose name decodes to an integer RPM, with that RPM
(characteristic_generator.py lines 56-58; a file whose name does not parse
raises ValueError inside the try and is skipped). -/
def parsedFiles (files : List (String × List RawRow)) : List (ℚ × List RawRow) :=
  (files.filter (fun f => strEndsWith f.1 ".dat")).filterMap
    (fun f => (pyInt (stripDat f.1)).map (fun z => ((z : ℚ), f.2)))

/-- The RPMs (as rationals) of the successfully decoded .dat files. -/
def successRpms (files : List (String × List RawRow)) : List ℚ :=
  (parsedFiles files).map Prod.fst

/-- `generate_propeller_characteristics` (characteristic_generator.py
lines 18-149).  Input: the folder's base name and its directory listing
(file name and parsed .dat rows; reading is modelled as already done).
Output: the per-airspeed tables keyed 0-100 plus the folder name, or
`none` for the `(None, None)` failure result. -/
def generate (interp2 interp3 : List (Option ℚ) → List (Option ℚ))
    (folderName : String) (files : List (String × List RawRow)) :
    Option (List (ℚ × List FRow) × String) :=
  match parseDiameter folderName with
  | none => none
  | some D =>
    let datFiles := files.filter (fun f => strEndsWith f.1 ".dat")
    if datFiles.isEmpty then none
    else
      let parsed := parsedFiles files
      if parsed.isEmpty then none
      else
        let frames := parsed.map (fun p => fileFrame interp2 interp3 p.1 D p.2)
        let allFrames := frames ++ [zeroFrame]
        some ((List.range 101).map (fun v : ℕ =>
          ((v : ℚ),
            sortBy (fun a b => decide (a.rpm ≤ b.rpm))
              (allFrames.flatMap (fun fr => fr.filter (fun w => w.V == (v : ℚ)))))), folderName)

/-! ## Operating-point solver (thrust_lookup.py) -/

/-- `numpy.interp` for pairs (x-sample, y-sample), following its documented
semantics on an increasing x-axis: clamp to the first y below the range,
clamp to the last y above it, piecewise-linear inside.  (Division by zero
in a degenerate zero-width segment yields the left value; numpy's behavior
on a non-increasing axis is documented as unspecified.) -/
def npInterpGo (x : ℚ) : ℚ → ℚ → List (ℚ × ℚ) → ℚ
  | _, y1, [] => y1
  | x1, y1, (x2, y2) :: rest =>
    if x ≤ x2 then y1 + (y2 - y1) * (x - x1) / (x2 - x1)
    else npInterpGo x x2 y2 rest

/-- `numpy.interp` entry point; numpy raises on an empty sample axis, and
all call sites guard non-emptiness, so the empty case is arbitrary. -/
def npInterp (x : ℚ) (pts : List (ℚ × ℚ)) : ℚ :=
  match pts with
  | [] => 0
  | (x1, y1) :: rest => if x ≤ x1 then y1 else npInterpGo x x1 y1 rest

/-- `np.min` on a nonempty list (0 on the empty list, where numpy raises). -/
def listMin : List ℚ → ℚ
  | [] => 0
  | x :: xs => xs.foldl min x

/-- `np.max` on a nonempty list (0 on the empty list, where numpy raises). -/
def listMax : List ℚ → ℚ
  | [] => 0
  | x :: xs => xs.foldl max x

/-- Warnings printed by the solver, modelled as annotations on the result. -/
inductive Warning
  | speedSubstituted
  | targetBelowMin
  | targetAboveMax
  | rpmExceedsMax
deriving DecidableEq

/-- Hard failures of the solver (a `return None` branch), plus
`pyException` for paths where the Python code would raise an uncaught
exception (min() of an empty array, missing dictionary key). -/
inductive SolveError
  | noPositiveThrustData
  | insufficientFittingData
  | curveFitFailed
  | rootFindingDiverged
  | negativeRpm
  | pyException
deriving DecidableEq

/-- The solver's result record (thrust_lookup.py lines 112-125, 285-298). -/
structure OperatingPoint where
  rpm : ℚ
  thrust : ℚ
  torque : ℚ
  power : ℚ
  flightSpeed : ℚ
  advRat : ℚ
  ct : ℚ
  cp : ℚ
  eff : ℚ
  diaInches : ℚ
  maxMech : ℚ
  isStatic : Bool
deriving DecidableEq

/-- Modelled from the spec: `PlotUtilities.second_order_polynomial` lives in
char_plotter.py, which is not among the sources; the spec fits thrust(RPM)
and torque(RPM) "as quadratics", so this is a generic quadratic in x with
coefficient triple c. -/
def poly2 (c : ℚ × ℚ × ℚ) (x : ℚ) : ℚ :=
  c.1 * x ^ 2 + c.2.1 * x + c.2.2

/-- Modelled from the spec: `PlotUtilities.third_order_polynomial` from
char_plotter.py; a generic cubic in x. -/
def poly3 (c : ℚ × ℚ × ℚ × ℚ) (x : ℚ) : ℚ :=
  c.1 * x ^ 3 + c.2.1 * x ^ 2 + c.2.2.1 * x + c.2.2.2

/-- The external scipy routines the forward-flight regime calls:
least-squares fits of a quadratic/cubic, and the root finder seeded with a
guess.  `none` models a raised exception. -/
structure FitFns where
  fit2 : List ℚ → List ℚ → Option (ℚ × ℚ × ℚ)
  fit3 : List ℚ → List ℚ → Option (ℚ × ℚ × ℚ × ℚ)
  root : (ℚ → ℚ) → ℚ → Option ℚ

/-- `_find_operating_point_static` (thrust_lookup.py lines 48-125).
Zero-airspeed solve by direct interpolation over the rows with rpm > 0. -/
def staticSolve (dInch maxM target : ℚ) (tbl : List FRow) :
    Except SolveError (OperatingPoint × List Warning) :=
  let rows := tbl.filter (fun w => decide (0 < w.rpm))
  match rows with
  | [] => .error .pyException
  | _ :: _ =>
    let rpms := rows.map FRow.rpm
    let thr := rows.map FRow.T
    let minT := listMin thr
    let maxT := listMax thr
    let w1 : List Warning :=
      if target < minT then [.targetBelowMin]
      else if maxT < target then [.targetAboveMax]
      else []
    let rpmReq := npInterp target (thr.zip rpms)
    let torqueReq := npInterp rpmReq (rpms.zip (rows.map FRow.Q))
    let powerReq := npInterp rpmReq (rpms.zip (rows.map FRow.P))
    let ctv := npInterp rpmReq (rpms.zip (rows.map FRow.CT))
    let cpv := npInterp rpmReq (rpms.zip (rows.map FRow.CP))
    let w2 : List Warning := if maxM < rpmReq then [.rpmExceedsMax] else []
    .ok ({ rpm := rpmReq, thrust := target, torque := torqueReq,
           power := powerReq, flightSpeed := 0, advRat := 0, ct := ctv,
           cp := cpv, eff := 0, diaInches := dInch, maxMech := maxM,
           isStatic := true }, w1 ++ w2)

/-- The per-index predicate of `np.where((rpm > 0) & (thrust > 0.1))[0]`
(thrust_lookup.py line 166). -/
def sigP (tbl : List FRow) (i : ℕ) : Bool :=
  match tbl[i]? with
  | some w => decide (0 < w.rpm) && decide ((1 : ℚ) / 10 < w.T)
  | none => false

/-- Indices of `np.where((rpm > 0) & (thrust > 0.1))[0]`. -/
def sigIdx (tbl : List FRow) : List ℕ :=
  (List.range tbl.length).filter (sigP tbl)

/-- Thrust at index i (0 out of range; all uses are in range). -/
def thrustAt (tbl : List FRow) (i : ℕ) : ℚ :=
  ((tbl[i]?).map FRow.T).getD 0

/-- The look-ahead test of the candidate loop (thrust_lookup.py lines
172-188): with `look_ahead = min(2, len - i - 1)`, the next two samples
must exceed the threshold, or the next one near the end, or nothing at the
very last index.  The Python loop takes the first candidate passing this
test and otherwise continues, i.e. it is `List.find?` over the candidate
indices. -/
def runOk (tbl : List FRow) (i : ℕ) : Bool :=
  if 2 ≤ min 2 (tbl.length - i - 1) then
    decide ((1 : ℚ) / 10 < thrustAt tbl (i + 1)) &&
      decide ((1 : ℚ) / 10 < thrustAt tbl (i + 2))
  else if min 2 (tbl.length - i - 1) = 1 then
    decide ((1 : ℚ) / 10 < thrustAt tbl (i + 1))
  else true

/-- The per-index predicate of `np.where((rpm > 0) & (thrust > 0))[0]`
(thrust_lookup.py line 197). -/
def posP (tbl : List FRow) (i : ℕ) : Bool :=
  match tbl[i]? with
  | some w => decide (0 < w.rpm) && decide (0 < w.T)
  | none => false

/-- Indices of `np.where((rpm > 0) & (thrust > 0))[0]`. -/
def posIdx (tbl : List FRow) : List ℕ :=
  (List.range tbl.length).filter (posP tbl)

/-- The onset-index computation (thrust_lookup.py lines 166-202): first
candidate with a consistent run, else the first candidate, else the first
strictly-positive-thrust sample, else the NoPositiveThrustData failure. -/
def onsetIdx (tbl : List FRow) : Option ℕ :=
  match sigIdx tbl with
  | [] => (posIdx tbl).head?
  | s0 :: rest =>
    match (s0 :: rest).find? (fun i => runOk tbl i) with
    | some i => some i
    | none => some s0

/-- The fitting window (thrust_lookup.py lines 204-217): rows with rpm at
or above the onset rpm, and at or below max mechanical rpm minus 1000 when
that ceiling is truthy (`if self.max_mechanical_rpm` and then
`if effective_max_rpm` are Python truthiness tests on floats). -/
def fitWindow (maxM : ℚ) (tbl : List FRow) (fprRpm : ℚ) : List FRow :=
  let eff : Option ℚ := if maxM ≠ 0 then some (maxM - 1000) else none
  match eff with
  | some e =>
    if e ≠ 0 then
      tbl.filter (fun w => decide (fprRpm ≤ w.rpm) && decide (w.rpm ≤ e))
    else tbl.filter (fun w => decide (fprRpm ≤ w.rpm))
  | none => tbl.filter (fun w => decide (fprRpm ≤ w.rpm))

/-- The forward-flight branch of `find_operating_point`
(thrust_lookup.py lines 150-298). -/
def forwardSolve (f : FitFns) (dInch maxM target speed : ℚ)
    (tbl : List FRow) : Except SolveError (OperatingPoint × List Warning) :=
  match onsetIdx tbl with
  | none => .error .noPositiveThrustData
  | some i0 =>
    let fprRpm := ((tbl[i0]?).map FRow.rpm).getD 0
    let win := fitWindow maxM tbl fprRpm
    let rpmFit := win.map FRow.rpm
    let thrFit := win.map FRow.T
    if rpmFit.length < 4 then .error .insufficientFittingData
    else
      match f.fit2 rpmFit thrFit, f.fit2 rpmFit (win.map FRow.Q),
          f.fit3 rpmFit (win.map FRow.P) with
      | some pT, some pQ, some pP =>
        let maxT := listMax thrFit
        let minT := listMin thrFit
        let w1 : List Warning :=
          if maxT * (11 / 10) < target then [.targetAboveMax]
          else if target < minT then [.targetBelowMin]
          else []
        let guess :=
          if minT ≤ target ∧ target ≤ maxT then npInterp target (thrFit.zip rpmFit)
          else rpmFit.getD (rpmFit.length / 2) 0
        match f.root (fun r => poly2 pT r - target) guess with
        | none => .error .rootFindingDiverged
        | some rr =>
          if rr < 0 then .error .negativeRpm
          else
            let w2 : List Warning :=
              if maxM * (12 / 10) < rr then [.rpmExceedsMax] else []
            .ok ({ rpm := rr, thrust := poly2 pT rr, torque := poly2 pQ rr,
                   power := poly3 pP rr, flightSpeed := speed,
                   advRat := npInterp rr (rpmFit.zip (win.map FRow.J)),
                   ct := npInterp rr (rpmFit.zip (win.map FRow.CT)),
                   cp := npInterp rr (rpmFit.zip (win.map FRow.CP)),
                   eff := npInterp rr (rpmFit.zip (win.map FRow.eta)),
                   diaInches := dInch, maxMech := maxM,
                   isStatic := false }, w1 ++ w2)
      | _, _, _ => .error .curveFitFailed

/-- Modelled from the spec: `PropellerDataManager.find_closest_value` lives
in char_plotter.py, which is not among the sources; per the spec it returns
the nearest available airspeed key (here: the first key minimizing the
distance to the requested speed). -/
def closestKey (keys : List ℚ) (s : ℚ) : ℚ :=
  keys.foldl (fun best k => if |k - s| < |best - s| then k else best)
    (keys.headD 0)

/-- Dictionary lookup `self.data[k]`. -/
def lookupTbl (data : List (ℚ × List FRow)) (k : ℚ) : Option (List FRow) :=
  (data.find? (fun p => p.1 == k)).map Prod.snd

/-- `find_operating_point` (thrust_lookup.py lines 127-298): substitute the
closest available speed key when the requested one is absent (with a
warning), dispatch to the static regime at speed 0, otherwise run the
forward-flight regime. -/
def findOperatingPoint (f : FitFns) (dInch maxM : ℚ)
    (data : List (ℚ × List FRow)) (target speed : ℚ) :
    Except SolveError (OperatingPoint × List Warning) :=
  let present := data.any (fun p => p.1 == speed)
  let sw : ℚ × List Warning :=
    if present then (speed, []) else (closestKey (data.map Prod.fst) speed, [.speedSubstituted])
  if sw.1 = 0 then
    match lookupTbl data 0 with
    | none => .error .pyException
    | some tbl => (staticSolve dInch maxM target tbl).map (fun r => (r.1, sw.2 ++ r.2))
  else
    match lookupTbl data sw.1 with
    | none => .error .pyException
    | some tbl =>
      (forwardSolve f dInch maxM target sw.1 tbl).map (fun r => (r.1, sw.2 ++ r.2))

/-! ## Concrete inputs used by witnesses and counterexamples -/

/-- The onset rule exactly as claim C5 words it: the lowest index whose
thrust exceeds 0.1 N and whose next one or two samples also exceed it
(the same windowed test `runOk` the code uses), and, if no index admits
such a run, a fallback to the first strictly-positive-thrust sample.
Stated for comparison with the code's `onsetIdx`. -/
def claimOnsetC5 (tbl : List FRow) : Option ℕ :=
  match ((List.range tbl.length).filter
      (fun i => decide ((1 : ℚ) / 10 < thrustAt tbl i) && runOk tbl i)).head? with
  | some i => some i
  | none =>
    ((List.range tbl.length).filter (fun i => decide (0 < thrustAt tbl i))).head?

/-- A trivial instantiation of the external scipy routines, used for
concrete evaluations: both fits return the zero polynomial and the root
finder returns its seed. -/
def trivFits : FitFns :=
  ⟨fun _ _ => some (0, 0, 0), fun _ _ => some (0, 0, 0, 0), fun _ g => some g⟩

/-- The identity column transformation: what pandas interpolation does on a
column with no missing value. -/
def idCol : List (Option ℚ) → List (Option ℚ) := fun l => l

/-- A .dat file body covering every airspeed 0-100 with constant power and
thrust columns (so the interpolation step has nothing to fill and every
length-preserving transformation — in particular pandas — is the
identity on it). -/
def rows101 (p t : ℚ) : List RawRow :=
  (List.range 101).map (fun v : ℕ => ⟨(v : ℚ), 0, 0, 0, 0, p, 0, t⟩)

/-- Folder listing with a single file named `0.dat` (decoding to RPM 0)
whose thrust column is 1 N everywhere. -/
def c1files : List (String × List RawRow) := [("0.dat", rows101 0 1)]

/-- Folder listing with a single 1000-RPM file whose power is −60 W and
thrust 24 N at every airspeed. -/
def c2files : List (String × List RawRow) := [("1000.dat", rows101 (-60) 24)]

/-- A one-row .dat body. -/
def tinyRows : List RawRow := [⟨0, 0, 0, 0, 0, 0, 0, 1⟩]

/-- A zero-airspeed table: the synthetic zero row plus three measured rows
with strictly increasing thrust 1, 2, 3 N at 10, 20, 30 RPM. -/
def staticTbl : List FRow := [zeroRow 0,
  { zeroRow 0 with rpm := 10, T := 1, Q := 10, P := 100, CT := 1 / 100, CP := 1 / 50 },
  { zeroRow 0 with rpm := 20, T := 2, Q := 20, P := 200, CT := 2 / 100, CP := 2 / 50 },
  { zeroRow 0 with rpm := 30, T := 3, Q := 30, P := 300, CT := 3 / 100, CP := 3 / 50 }]

/-- A dataset holding `staticTbl` under the airspeed key 0. -/
def staticData : List (ℚ × List FRow) := [(0, staticTbl)]

/-- The C5 counterexample table: thrust 0, 0.05, 0.2, −1 across rows with
rpm 0, 10, 20, 30.  Thrust first exceeds 0 at index 1 but first
exceeds the 0.1 N threshold at index 2, and no index admits a run. -/
def c5tbl : List FRow := [zeroRow 0,
  { zeroRow 0 with rpm := 10, T := 1 / 20 },
  { zeroRow 0 with rpm := 20, T := 1 / 5 },
  { zeroRow 0 with rpm := 30, T := -1 }]

/-- A forward-flight table at airspeed 1: thrust 1, 2, 3, 4 N at 2, 3,
4, 5 RPM after the zero row. -/
def fwdTbl : List FRow := [zeroRow 1,
  { zeroRow 1 with rpm := 2, T := 1 },
  { zeroRow 1 with rpm := 3, T := 2 },
  { zeroRow 1 with rpm := 4, T := 3 },
  { zeroRow 1 with rpm := 5, T := 4 }]

/-- A dataset holding `fwdTbl` under the airspeed key 1. -/
def fwdData : List (ℚ × List FRow) := [(1, fwdTbl)]

/-! ## General lemmas about the sorting and interpolation primitives -/

theorem insertLe_perm {α : Type} (le : α → α → Bool) (a : α) (l : List α) :
    (insertLe le a l).Perm (a :: l) := by
  induction l with
  | nil => simp [insertLe]
  | cons b bs ih =>
    simp only [insertLe]
    split
    · exact List.Perm.refl _
    · exact (ih.cons b).trans (List.Perm.swap a b bs)

theorem sortBy_perm {α : Type} (le : α → α → Bool) (l : List α) :
    (sortBy le l).Perm l := by
  induction l with
  | nil => simp [sortBy]
  | cons a as ih => exact (insertLe_perm le a (sortBy le as)).trans (ih.cons a)

theorem mem_sortBy {α : Type} {le : α → α → Bool} {l : List α} {a : α} :
    a ∈ sortBy le l ↔ a ∈ l :=
  (sortBy_perm le l).mem_iff

theorem mem_insertLe {α : Type} {le : α → α → Bool} {l : List α} {a x : α} :
    x ∈ insertLe le a l ↔ x = a ∨ x ∈ l := by
  rw [(insertLe_perm le a l).mem_iff, List.mem_cons]

theorem pairwise_insertLe {α : Type} {le : α → α → Bool}
    (htrans : ∀ a b c, le a b = true → le b c = true → le a c = true)
    (htot : ∀ a b, (le a b || le b a) = true) (a : α) {l : List α}
    (hl : l.Pairwise (fun x y => le x y = true)) :
    (insertLe le a l).Pairwise (fun x y => le x y = true) := by
  induction l with
  | nil => simp [insertLe]
  | cons b bs ih =>
    rw [List.pairwise_cons] at hl
    obtain ⟨hb, hbs⟩ := hl
    simp only [insertLe]
    split
    · rename_i hab
      refine List.pairwise_cons.2 ⟨?_, List.pairwise_cons.2 ⟨hb, hbs⟩⟩
      intro y hy
      rcases List.mem_cons.1 hy with rfl | hy
      · exact hab
      · exact htrans a b y hab (hb y hy)
    · rename_i hab
      have hba : le b a = true := by
        have h2 := htot a b
        rw [Bool.or_eq_true] at h2
        rcases h2 with h | h
        · exact absurd h hab
        · exact h
      refine List.pairwise_cons.2 ⟨?_, ih hbs⟩
      intro y hy
      rcases mem_insertLe.1 hy with rfl | hy
      · exact hba
      · exact hb y hy

theorem pairwise_sortBy {α : Type} {le : α → α → Bool}
    (htrans : ∀ a b c, le a b = true → le b c = true → le a c = true)
    (htot : ∀ a b, (le a b || le b a) = true) (l : List α) :
    (sortBy le l).Pairwise (fun x y => le x y = true) := by
  induction l with
  | nil => simp [sortBy]
  | cons a as ih => exact pairwise_insertLe htrans htot a ih

theorem npInterpGo_knot (x0 y0 : ℚ) (xs ys : List ℚ)
    (hp : (x0 :: xs).Pairwise (· < ·)) (k : ℕ) (hk : k < xs.length)
    (hky : k < ys.length) :
    npInterpGo (xs.get ⟨k, hk⟩) x0 y0 (xs.zip ys) = ys.get ⟨k, hky⟩ := by
  induction xs generalizing x0 y0 ys k with
  | nil => simp at hk
  | cons x1 rest ih =>
    cases ys with
    | nil => simp at hky
    | cons y1 yrest =>
      rw [List.pairwise_cons] at hp
      obtain ⟨h0, hp1⟩ := hp
      cases k with
      | zero =>
        have hlt : x0 < x1 := h0 x1 (List.mem_cons_self x1 rest)
        have hne : x1 - x0 ≠ 0 := sub_ne_zero.2 (ne_of_gt hlt)
        simp only [List.zip_cons_cons, npInterpGo, List.get]
        rw [if_pos (le_refl x1)]
        field_simp
      | succ k1 =>
        have hk1 : k1 < rest.length := by simpa using hk
        have hx : x1 < rest.get ⟨k1, hk1⟩ := by
          rw [List.pairwise_cons] at hp1
          exact hp1.1 _ (List.get_mem rest k1 hk1)
        simp only [List.zip_cons_cons, npInterpGo, List.get]
        rw [if_neg (not_le.2 hx)]
        exact ih x1 y1 yrest hp1 k1 hk1 (by simpa using hky)

/-- `numpy.interp` evaluated exactly at the k-th sample of a strictly
increasing axis returns the k-th value. -/
theorem npInterp_knot (xs ys : List ℚ) (hp : xs.Pairwise (· < ·)) (k : ℕ)
    (hk : k < xs.length) (hky : k < ys.length) :
    npInterp (xs.get ⟨k, hk⟩) (xs.zip ys) = ys.get ⟨k, hky⟩ := by
  cases xs with
  | nil => simp at hk
  | cons x0 xrest =>
    cases ys with
    | nil => simp at hky
    | cons y0 yrest =>
      cases k with
      | zero =>
        simp only [List.zip_cons_cons, npInterp, List.get]
        rw [if_pos (le_refl x0)]
      | succ k1 =>
        have hk1 : k1 < xrest.length := by simpa using hk
        have hx : x0 < xrest.get ⟨k1, hk1⟩ := by
          rw [List.pairwise_cons] at hp
          exact hp.1 _ (List.get_mem xrest k1 hk1)
        simp only [List.zip_cons_cons, npInterp, List.get]
        rw [if_neg (not_le.2 hx)]
        exact npInterpGo_knot x0 y0 xrest yrest hp k1 hk1 (by simpa using hky)

/-- A successful `find?` over a filtered range returns the least index
satisfying both predicates. -/
theorem find?_filter_range_some {n : ℕ} {q p : ℕ → Bool} {i : ℕ}
    (h : ((List.range n).filter q).find? p = some i) :
    q i = true ∧ p i = true ∧ i < n ∧
      ∀ j, j < i → q j = true → p j = true → False := by
  rw [List.find?_eq_some] at h
  obtain ⟨hpi, as, bs, heq, has⟩ := h
  have hmem : i ∈ (List.range n).filter q := by
    rw [heq]
    exact List.mem_append_right as (List.mem_cons_self i bs)
  have hq : q i = true := (List.mem_filter.1 hmem).2
  have hin : i < n := List.mem_range.1 (List.mem_filter.1 hmem).1
  refine ⟨hq, hpi, hin, ?_⟩
  intro j hj hqj hpj
  have hjmem : j ∈ (List.range n).filter q :=
    List.mem_filter.2 ⟨List.mem_range.2 (hj.trans hin), hqj⟩
  rw [heq] at hjmem
  rcases List.mem_append.1 hjmem with hja | hjb
  · have := has j hja
    rw [hpj] at this
    simp at this
  · have hpw : ((List.range n).filter q).Pairwise (· < ·) :=
      List.Pairwise.filter q (List.pairwise_lt_range n)
    rw [heq] at hpw
    rcases List.mem_cons.1 hjb with rfl | hjb
    · exact lt_irrefl j hj
    · have hcons : (i :: bs).Pairwise (· < ·) := (List.pairwise_append.1 hpw).2.1
      have : i < j := (List.pairwise_cons.1 hcons).1 j hjb
      omega

/-- When some index satisfies both predicates, `find?` over the filtered
range returns exactly the `Nat.find` least such index. -/
theorem find?_filter_range_eq_natFind {n : ℕ} {q p : ℕ → Bool}
    (hbound : ∀ i, q i = true → i < n)
    (hex : ∃ i, q i = true ∧ p i = true) :
    ((List.range n).filter q).find? p = some (Nat.find hex) := by
  have hq0 : q (Nat.find hex) = true := (Nat.find_spec hex).1
  have hp0 : p (Nat.find hex) = true := (Nat.find_spec hex).2
  have hmem : Nat.find hex ∈ (List.range n).filter q :=
    List.mem_filter.2 ⟨List.mem_range.2 (hbound _ hq0), hq0⟩
  cases hfind : ((List.range n).filter q).find? p with
  | none =>
    have := List.find?_eq_none.1 hfind _ hmem
    rw [hp0] at this
    simp at this
  | some j =>
    obtain ⟨hqj, hpj, hjn, hleast⟩ := find?_filter_range_some hfind
    have h1 : Nat.find hex ≤ j := Nat.find_min' hex ⟨hqj, hpj⟩
    have h2 : ¬ Nat.find hex < j := by
      intro hlt
      obtain ⟨hq2, hp2⟩ := Nat.find_spec hex
      exact hleast _ hlt hq2 hp2
    have : Nat.find hex = j := by omega
    rw [this]

/-- `head?` of a filtered range is the least index satisfying the
predicate. -/
theorem head?_filter_range_eq_natFind {n : ℕ} {q : ℕ → Bool}
    (hbound : ∀ i, q i = true → i < n)
    (hex : ∃ i, q i = true) :
    ((List.range n).filter q).head? = some (Nat.find hex) := by
  have hex' : ∃ i, q i = true ∧ (fun _ : ℕ => true) i = true := by
    obtain ⟨i, hi⟩ := hex
    exact ⟨i, hi, rfl⟩
  have hfind := @find?_filter_range_eq_natFind n q (fun _ => true) hbound hex'
  have hhead : ∀ (l : List ℕ), l.find? (fun _ => true) = l.head? := by
    intro l
    cases l <;> simp [List.find?]
  rw [hhead] at hfind
  rw [hfind]
  congr 1
  have h1 : Nat.find hex ≤ Nat.find hex' := Nat.find_min' hex (Nat.find_spec hex').1
  have h2 : Nat.find hex' ≤ Nat.find hex := by
    refine Nat.find_min' hex' ⟨Nat.find_spec hex, rfl⟩
  omega

/-! ## Structure of the generator's output -/

/-- A successful `generate` run determines the shape of its output: the
diameter parsed, the name is echoed, at least one file decoded, and the
dataset is the per-airspeed reassembly of the processed file frames plus
the synthetic zero frame, sorted by rpm. -/
theorem generate_struct {interp2 interp3 : List (Option ℚ) → List (Option ℚ)}
    {folderName : String} {files : List (String × List RawRow)}
    {ds : List (ℚ × List FRow)} {nm : String}
    (hg : generate interp2 interp3 folderName files = some (ds, nm)) :
    ∃ D, parseDiameter folderName = some D ∧ nm = folderName ∧
      parsedFiles files ≠ [] ∧
      ds = (List.range 101).map (fun v : ℕ =>
        ((v : ℚ), sortBy (fun a b => decide (a.rpm ≤ b.rpm))
          ((((parsedFiles files).map (fun p => fileFrame interp2 interp3 p.1 D p.2)
              ++ [zeroFrame]).flatMap
            (fun fr => fr.filter (fun w => w.V == (v : ℚ))))))) := by
  unfold generate at hg
  cases hD : parseDiameter folderName with
  | none => rw [hD] at hg; exact absurd hg (by simp)
  | some D =>
    rw [hD] at hg
    simp only at hg
    by_cases hdat : (files.filter (fun f => strEndsWith f.1 ".dat")).isEmpty
    · rw [if_pos hdat] at hg; exact absurd hg (by simp)
    · rw [if_neg hdat] at hg
      by_cases hpar : (parsedFiles files).isEmpty
      · rw [if_pos hpar] at hg; exact absurd hg (by simp)
      · rw [if_neg hpar] at hg
        have hpair := Option.some_inj.1 hg
        rw [Prod.mk.injEq] at hpair
        obtain ⟨h1, h2⟩ := hpair
        refine ⟨D, rfl, h2.symm, ?_, h1.symm⟩
        intro h
        rw [h] at hpar
        simp at hpar

theorem finishRow_rpm (r D : ℚ) (w : MRow) : (finishRow r D w).rpm = r := rfl

theorem finishRow_V (r D : ℚ) (w : MRow) : (finishRow r D w).V = w.V := rfl

/-- Every row of a processed file frame carries the file's rpm. -/
theorem fileFrame_rpm {interp2 interp3 : List (Option ℚ) → List (Option ℚ)}
    {r D : ℚ} {rows : List RawRow} {w : FRow}
    (hw : w ∈ fileFrame interp2 interp3 r D rows) : w.rpm = r := by
  obtain ⟨m, _, rfl⟩ := List.mem_map.1 hw
  rfl

/-- Every row of the zero frame has rpm 0. -/
theorem zeroFrame_rpm {w : FRow} (hw : w ∈ zeroFrame) : w.rpm = 0 := by
  obtain ⟨v, _, rfl⟩ := List.mem_map.1 hw
  rfl

theorem map_V_zipWith_setT (rows : List MRow) (col : List (Option ℚ))
    (h : col.length = rows.length) :
    (List.zipWith setT rows col).map MRow.V = rows.map MRow.V := by
  induction rows generalizing col with
  | nil => simp
  | cons a as ih =>
    cases col with
    | nil => simp at h
    | cons c cs =>
      simp only [List.zipWith_cons_cons, List.map_cons]
      exact congrArg _ (ih cs (by simpa using h))

theorem map_V_zipWith_setQ (rows : List MRow) (col : List (Option ℚ))
    (h : col.length = rows.length) :
    (List.zipWith setQ rows col).map MRow.V = rows.map MRow.V := by
  induction rows generalizing col with
  | nil => simp
  | cons a as ih =>
    cases col with
    | nil => simp at h
    | cons c cs =>
      simp only [List.zipWith_cons_cons, List.map_cons]
      exact congrArg _ (ih cs (by simpa using h))

theorem map_V_zipWith_setP (rows : List MRow) (col : List (Option ℚ))
    (h : col.length = rows.length) :
    (List.zipWith setP rows col).map MRow.V = rows.map MRow.V := by
  induction rows generalizing col with
  | nil => simp
  | cons a as ih =>
    cases col with
    | nil => simp at h
    | cons c cs =>
      simp only [List.zipWith_cons_cons, List.map_cons]
      exact congrArg _ (ih cs (by simpa using h))

/-- For length-preserving column transformations, the interpolation step
leaves the V column untouched. -/
theorem interpCols_map_V {interp2 interp3 : List (Option ℚ) → List (Option ℚ)}
    (h2 : ∀ l, (interp2 l).length = l.length)
    (h3 : ∀ l, (interp3 l).length = l.length) (rows : List MRow) :
    (interpCols interp2 interp3 rows).map MRow.V = rows.map MRow.V := by
  unfold interpCols
  have l1 : (List.zipWith setT rows (interp2 (rows.map MRow.T))).length = rows.length := by
    rw [List.length_zipWith, h2, List.length_map, min_self]
  have e1 := map_V_zipWith_setT rows (interp2 (rows.map MRow.T))
    (by rw [h2, List.length_map])
  set rows1 := List.zipWith setT rows (interp2 (rows.map MRow.T)) with hr1
  have l2 : (List.zipWith setQ rows1 (interp2 (rows1.map MRow.Q))).length = rows1.length := by
    rw [List.length_zipWith, h2, List.length_map, min_self]
  have e2 := map_V_zipWith_setQ rows1 (interp2 (rows1.map MRow.Q))
    (by rw [h2, List.length_map])
  set rows2 := List.zipWith setQ rows1 (interp2 (rows1.map MRow.Q)) with hr2
  have e3 := map_V_zipWith_setP rows2 (interp3 (rows2.map MRow.P))
    (by rw [h3, List.length_map])
  rw [e3, e2, e1]

/-- The merge covers every integer airspeed 0-100. -/
theorem mergeSpeeds_covers (r : ℚ) (rows : List RawRow) (v : ℕ) (hv : v < 101) :
    (v : ℚ) ∈ (mergeSpeeds r rows).map MRow.V := by
  unfold mergeSpeeds
  rw [List.mem_map]
  by_cases h : (rows.map (rawToM r)).any (fun w => w.V == (v : ℚ))
  · obtain ⟨w, hw, hwv⟩ := List.any_eq_true.1 h
    refine ⟨w, mem_sortBy.2 (List.mem_append_left _ hw), ?_⟩
    exact (beq_iff_eq.1 hwv)
  · refine ⟨nullRow r (v : ℚ), mem_sortBy.2
      (List.mem_append_right _ (List.mem_map_of_mem _ ?_)), rfl⟩
    refine List.mem_filter.2 ⟨List.mem_range.2 hv, ?_⟩
    simpa using h

/-- A processed file frame covers every integer airspeed 0-100. -/
theorem fileFrame_covers {interp2 interp3 : List (Option ℚ) → List (Option ℚ)}
    (h2 : ∀ l, (interp2 l).length = l.length)
    (h3 : ∀ l, (interp3 l).length = l.length)
    (r D : ℚ) (rows : List RawRow) (v : ℕ) (hv : v < 101) :
    ∃ w ∈ fileFrame interp2 interp3 r D rows, w.V = (v : ℚ) := by
  have hcov := mergeSpeeds_covers r rows v hv
  rw [← interpCols_map_V h2 h3 (mergeSpeeds r rows)] at hcov
  obtain ⟨m, hm, hmV⟩ := List.mem_map.1 hcov
  exact ⟨finishRow r D m, List.mem_map.2 ⟨m, hm, rfl⟩, hmV⟩

/-- The zero frame covers every integer airspeed 0-100 with its canonical
zero row. -/
theorem zeroFrame_covers (v : ℕ) (hv : v < 101) :
    zeroRow (v : ℚ) ∈ zeroFrame := by
  unfold zeroFrame
  exact List.mem_map_of_mem _ (List.mem_range.2 hv)

/-- The rpm values present in the per-airspeed gathering (before sorting):
exactly zero and the decoded file rpms. -/
theorem rpm_mem_gather {interp2 interp3 : List (Option ℚ) → List (Option ℚ)}
    (h2 : ∀ l, (interp2 l).length = l.length)
    (h3 : ∀ l, (interp3 l).length = l.length)
    (files : List (String × List RawRow)) (D : ℚ) (v : ℕ) (hv : v < 101)
    (x : ℚ) :
    (x ∈ (((parsedFiles files).map (fun p => fileFrame interp2 interp3 p.1 D p.2)
        ++ [zeroFrame]).flatMap
          (fun fr => fr.filter (fun w => w.V == (v : ℚ)))).map FRow.rpm) ↔
      x = 0 ∨ x ∈ successRpms files := by
  constructor
  · intro hx
    obtain ⟨w, hw, rfl⟩ := List.mem_map.1 hx
    obtain ⟨fr, hfr, hwf⟩ := List.mem_flatMap.1 hw
    have hwfr : w ∈ fr := List.mem_of_mem_filter hwf
    rcases List.mem_append.1 hfr with hfrL | hfrR
    · obtain ⟨p, hp, rfl⟩ := List.mem_map.1 hfrL
      right
      rw [fileFrame_rpm hwfr]
      exact List.mem_map_of_mem _ hp
    · left
      rw [List.mem_singleton.1 hfrR] at hwfr
      exact zeroFrame_rpm hwfr
  · intro hx
    rcases hx with rfl | hx
    · refine List.mem_map.2 ⟨zeroRow (v : ℚ), List.mem_flatMap.2
        ⟨zeroFrame, List.mem_append_right _ (List.mem_singleton.2 rfl), ?_⟩, rfl⟩
      exact List.mem_filter.2 ⟨zeroFrame_covers v hv, by simp [zeroRow]⟩
    · obtain ⟨p, hp, rfl⟩ := List.mem_map.1 hx
      obtain ⟨w, hwmem, hwV⟩ := fileFrame_covers h2 h3 p.1 D p.2 v hv
      refine List.mem_map.2 ⟨w, List.mem_flatMap.2
        ⟨fileFrame interp2 interp3 p.1 D p.2,
          List.mem_append_left _ (List.mem_map_of_mem _ hp), ?_⟩,
        fileFrame_rpm hwmem⟩
      exact List.mem_filter.2 ⟨hwmem, by simp [hwV]⟩

/-- C1 (amended): every synthesized dataset has exactly the 101 integer
airspeed keys 0..100 in order; every per-airspeed table carries, as a set,
exactly the decoded file rpms plus 0, listed in ascending rpm order; and —
provided no readable file itself decodes to RPM 0 — the table has exactly
one RPM-0 row, namely the synthetic all-zero row whose V is the table's
airspeed key.  (The proviso is forced by `C1_counterexample`: a file named
`0.dat` contributes additional RPM-0 rows with measured, nonzero data.) -/
theorem C1_dataset_invariants
    {interp2 interp3 : List (Option ℚ) → List (Option ℚ)}
    (h2 : ∀ l, (interp2 l).length = l.length)
    (h3 : ∀ l, (interp3 l).length = l.length)
    {folderName : String} {files : List (String × List RawRow)}
    {ds : List (ℚ × List FRow)} {nm : String}
    (hg : generate interp2 interp3 folderName files = some (ds, nm)) :
    ds.map Prod.fst = (List.range 101).map (fun v : ℕ => (v : ℚ)) ∧
    ∀ p ∈ ds,
      (p.2.map FRow.rpm).toFinset = insert 0 (successRpms files).toFinset ∧
      List.Pairwise (fun a b : ℚ => a ≤ b) (p.2.map FRow.rpm) ∧
      ((0 : ℚ) ∉ successRpms files →
        p.2.countP (fun w => w.rpm == 0) = 1 ∧
        ∀ w ∈ p.2, w.rpm = 0 → w = zeroRow p.1) := by
  obtain ⟨D, hD, hnm, hne, hds⟩ := generate_struct hg
  constructor
  · rw [hds, List.map_map]
    rfl
  · intro p hp
    rw [hds] at hp
    obtain ⟨v, hv, rfl⟩ := List.mem_map.1 hp
    have hv101 : v < 101 := List.mem_range.1 hv
    set L := (((parsedFiles files).map
        (fun q => fileFrame interp2 interp3 q.1 D q.2) ++ [zeroFrame]).flatMap
      (fun fr => fr.filter (fun w => w.V == (v : ℚ)))) with hL
    have hperm : (sortBy (fun a b => decide (a.rpm ≤ b.rpm)) L).Perm L :=
      sortBy_perm _ L
    refine ⟨?_, ?_, ?_⟩
    · ext x
      simp only [List.mem_toFinset, Finset.mem_insert]
      rw [(hperm.map FRow.rpm).mem_iff]
      exact rpm_mem_gather h2 h3 files D v hv101 x
    · have hpw := @pairwise_sortBy FRow (fun a b : FRow => decide (a.rpm ≤ b.rpm))
        (fun a b c hab hbc =>
          decide_eq_true (le_trans (of_decide_eq_true hab) (of_decide_eq_true hbc)))
        (fun a b => by
          rcases le_total a.rpm b.rpm with h | h
          · simp [decide_eq_true h]
          · simp [decide_eq_true h]) L
      rw [List.pairwise_map]
      exact hpw.imp (fun h => of_decide_eq_true h)
    · intro h0
      have hframe_ne : ∀ w ∈ L, w.rpm ≠ 0 → True := fun _ _ _ => trivial
      constructor
      · rw [hperm.countP_eq]
        rw [hL, List.flatMap_append]
        rw [List.countP_append]
        have hA : (((parsedFiles files).map
            (fun q => fileFrame interp2 interp3 q.1 D q.2)).flatMap
              (fun fr => fr.filter (fun w => w.V == (v : ℚ)))).countP
            (fun w => w.rpm == 0) = 0 := by
          rw [List.countP_eq_zero]
          intro w hw
          obtain ⟨fr, hfr, hwf⟩ := List.mem_flatMap.1 hw
          obtain ⟨q, hq, rfl⟩ := List.mem_map.1 hfr
          have : w.rpm = q.1 := fileFrame_rpm (List.mem_of_mem_filter hwf)
          have hq1 : q.1 ∈ successRpms files := List.mem_map_of_mem _ hq
          simp only [beq_iff_eq, this]
          intro hq0
          rw [hq0] at hq1
          exact h0 hq1
        rw [hA]
        have hB : ([zeroFrame].flatMap
            (fun fr => fr.filter (fun w => w.V == (v : ℚ)))) =
            zeroFrame.filter (fun w => w.V == (v : ℚ)) := by
          simp
        rw [hB]
        have hall : ∀ w ∈ zeroFrame.filter (fun w => w.V == (v : ℚ)),
            (fun w : FRow => w.rpm == 0) w = true := by
          intro w hw
          have := zeroFrame_rpm (List.mem_of_mem_filter hw)
          simp [this]
        rw [Nat.zero_add, List.countP_eq_length.2 hall]
        rw [← List.countP_eq_length_filter]
        unfold zeroFrame
        rw [List.countP_map]
        have hcongr : ∀ u ∈ List.range 101,
            (((fun w : FRow => w.V == (v : ℚ)) ∘ (fun u : ℕ => zeroRow (u : ℚ))) u = true ↔
              (u == v) = true) := by
          intro u _
          simp only [Function.comp_apply, zeroRow, beq_iff_eq]
          exact Nat.cast_inj
        rw [List.countP_congr hcongr]
        have : List.countP (fun u => u == v) (List.range 101) =
            List.count v (List.range 101) := rfl
        rw [this]
        exact List.count_eq_one_of_mem (List.nodup_range 101) (List.mem_range.2 hv101)
      · intro w hw hw0
        have hwL : w ∈ L := hperm.mem_iff.1 hw
        obtain ⟨fr, hfr, hwf⟩ := List.mem_flatMap.1 hwL
        have hwfr : w ∈ fr := List.mem_of_mem_filter hwf
        rcases List.mem_append.1 hfr with hfrL | hfrR
        · obtain ⟨q, hq, rfl⟩ := List.mem_map.1 hfrL
          exfalso
          have : w.rpm = q.1 := fileFrame_rpm hwfr
          rw [this] at hw0
          rw [← hw0] at h0
          exact h0 (List.mem_map_of_mem _ hq)
        · rw [List.mem_singleton.1 hfrR] at hwfr
          obtain ⟨u, hu, rfl⟩ := List.mem_map.1 hwfr
          have hVv : ((u : ℚ)) = ((v : ℚ)) := by
            have := (List.mem_filter.1 hwf).2
            simpa [zeroRow] using this
          rw [hVv]

set_option maxRecDepth 200000 in
set_option maxHeartbeats 8000000 in
/-- C1 counterexample: the claim asserts that in every synthesized dataset
the RPM = 0 row has all physical fields equal to zero.  A folder whose
single readable file is named `0.dat` (decoding to RPM 0) with 1 N of
thrust everywhere synthesizes a dataset whose airspeed-0 table contains an
RPM-0 row with T = 1 ≠ 0. -/
theorem C1_counterexample :
    (match generate idCol idCol "D10P" c1files with
      | some (ds, _) =>
        (match lookupTbl ds 0 with
          | some tbl => tbl.any (fun w => w.rpm == 0 && !(w.T == 0))
          | none => false)
      | none => false) = true := by
  with_unfolding_all decide

set_option maxRecDepth 200000 in
set_option maxHeartbeats 8000000 in
/-- C1 witness: the amended invariants hold on a concrete one-file
folder. -/
theorem C1_witness :
    ∃ ds nm, generate idCol idCol "D10P" [("1000.dat", tinyRows)] = some (ds, nm) ∧
      (ds.map Prod.fst = (List.range 101).map (fun v : ℕ => (v : ℚ)) ∧
      ∀ p ∈ ds,
        (p.2.map FRow.rpm).toFinset =
          insert 0 (successRpms [("1000.dat", tinyRows)]).toFinset ∧
        List.Pairwise (fun a b : ℚ => a ≤ b) (p.2.map FRow.rpm) ∧
        ((0 : ℚ) ∉ successRpms [("1000.dat", tinyRows)] →
          p.2.countP (fun w => w.rpm == 0) = 1 ∧
          ∀ w ∈ p.2, w.rpm = 0 → w = zeroRow p.1)) := by
  cases hgen : generate idCol idCol "D10P" [("1000.dat", tinyRows)] with
  | none =>
    have hs : (generate idCol idCol "D10P" [("1000.dat", tinyRows)]).isSome = true := by
      with_unfolding_all decide
    rw [hgen] at hs
    simp at hs
  | some pair =>
    exact ⟨pair.1, pair.2, by rw [← hgen],
      C1_dataset_invariants (fun l => rfl) (fun l => rfl)
        (by rw [hgen] : generate idCol idCol "D10P" [("1000.dat", tinyRows)] =
          some (pair.1, pair.2))⟩

/-- C2 (amended): in every synthesized dataset, every row satisfies
CQ = CP/(2π) with π the numpy double; and every row with rpm > 0 carries
coefficients recomputed from its own (interpolated) physical quantities:
J = V/(n·D), CT = T/(ρn²D⁴), CP = P/(ρn³D⁵) with n = rpm/60, ρ = 1.225 and
D the parsed diameter in meters — and eta = CT·J/CP when CP > 0, but 0
whenever CP ≤ 0 (the claim's `eta = 0 only when CP = 0` fails for
negative CP, see `C2_counterexample`). -/
theorem C2_coefficient_relations
    {interp2 interp3 : List (Option ℚ) → List (Option ℚ)}
    {folderName : String} {files : List (String × List RawRow)}
    {ds : List (ℚ × List FRow)} {nm : String} {D : ℚ}
    (hg : generate interp2 interp3 folderName files = some (ds, nm))
    (hd : parseDiameter folderName = some D) :
    ∀ p ∈ ds, ∀ w ∈ p.2,
      w.CQ = w.CP / (2 * npPi) ∧
      (0 < w.rpm →
        w.J = w.V / ((w.rpm / 60) * D) ∧
        w.CT = w.T / (rho * (w.rpm / 60) ^ 2 * D ^ 4) ∧
        w.CP = w.P / (rho * (w.rpm / 60) ^ 3 * D ^ 5) ∧
        w.eta = if 0 < w.CP then w.CT * w.J / w.CP else 0) := by
  obtain ⟨D', hD', hnm, hne, hds⟩ := generate_struct hg
  rw [hD'] at hd
  have hDD : D' = D := Option.some_inj.1 hd
  subst hDD
  intro p hp w hw
  rw [hds] at hp
  obtain ⟨v, hv, rfl⟩ := List.mem_map.1 hp
  have hwL := mem_sortBy.1 hw
  obtain ⟨fr, hfr, hwf⟩ := List.mem_flatMap.1 hwL
  have hwfr : w ∈ fr := List.mem_of_mem_filter hwf
  rcases List.mem_append.1 hfr with hfrL | hfrR
  · obtain ⟨q, hq, rfl⟩ := List.mem_map.1 hfrL
    obtain ⟨m, hm, rfl⟩ := List.mem_map.1 hwfr
    refine ⟨rfl, ?_⟩
    intro hrpm
    have hq1 : 0 < q.1 := hrpm
    have hn : 0 < q.1 / 60 := div_pos hq1 (by norm_num)
    refine ⟨?_, ?_, ?_, rfl⟩
    · show (if 0 < q.1 / 60 then m.V / ((q.1 / 60) * D') else 0) =
        m.V / ((q.1 / 60) * D')
      exact if_pos hn
    · show (if 0 < q.1 / 60 then orZero m.T / (rho * (q.1 / 60) ^ 2 * D' ^ 4) else 0) =
        orZero m.T / (rho * (q.1 / 60) ^ 2 * D' ^ 4)
      exact if_pos hn
    · show (if 0 < q.1 / 60 then orZero m.P / (rho * (q.1 / 60) ^ 3 * D' ^ 5) else 0) =
        orZero m.P / (rho * (q.1 / 60) ^ 3 * D' ^ 5)
      exact if_pos hn
  · rw [List.mem_singleton.1 hfrR] at hwfr
    obtain ⟨u, hu, rfl⟩ := List.mem_map.1 hwfr
    refine ⟨(zero_div _).symm, ?_⟩
    intro hrpm
    exact absurd hrpm (lt_irrefl 0)

set_option maxRecDepth 200000 in
set_option maxHeartbeats 8000000 in
/-- C2 counterexample: with a file whose power column is −60 W (and thrust
24 N) at every airspeed, the synthesized table contains a row with
rpm = 1000 > 0 and CP < 0 whose eta is 0 even though CT·J/CP ≠ 0 — the
code zeroes eta for every non-positive CP, not only for CP = 0. -/
theorem C2_counterexample :
    (match generate idCol idCol "D10P" c2files with
      | some (ds, _) =>
        (match lookupTbl ds 1 with
          | some tbl => tbl.any (fun w =>
              decide (0 < w.rpm) && decide (w.CP < 0) && (w.eta == 0) &&
                !(w.eta == w.CT * w.J / w.CP))
          | none => false)
      | none => false) = true := by
  with_unfolding_all decide

set_option maxRecDepth 200000 in
set_option maxHeartbeats 8000000 in
/-- C2 witness: the amended coefficient relations hold on a concrete
one-file folder whose parsed diameter is 10 in = 0.254 m. -/
theorem C2_witness :
    parseDiameter "D10P" = some (127 / 500) ∧
    (∃ ds nm, generate idCol idCol "D10P" [("1000.dat", tinyRows)] = some (ds, nm) ∧
      ∀ p ∈ ds, ∀ w ∈ p.2,
        w.CQ = w.CP / (2 * npPi) ∧
        (0 < w.rpm →
          w.J = w.V / ((w.rpm / 60) * (127 / 500)) ∧
          w.CT = w.T / (rho * (w.rpm / 60) ^ 2 * (127 / 500) ^ 4) ∧
          w.CP = w.P / (rho * (w.rpm / 60) ^ 3 * (127 / 500) ^ 5) ∧
          w.eta = if 0 < w.CP then w.CT * w.J / w.CP else 0)) := by
  refine ⟨by with_unfolding_all decide, ?_⟩
  cases hgen : generate idCol idCol "D10P" [("1000.dat", tinyRows)] with
  | none =>
    have hs : (generate idCol idCol "D10P" [("1000.dat", tinyRows)]).isSome = true := by
      with_unfolding_all decide
    rw [hgen] at hs
    simp at hs
  | some pair =>
    exact ⟨pair.1, pair.2, by rw [← hgen],
      C2_coefficient_relations
        (by rw [hgen] : generate idCol idCol "D10P" [("1000.dat", tinyRows)] =
          some (pair.1, pair.2))
        (by with_unfolding_all decide)⟩

/-! ## Solver lemmas -/

/-- Evaluation of the static solve when at least one row has positive rpm:
the result it returns, fully spelled out. -/
theorem staticSolve_eq {dInch maxM target : ℚ} {tbl : List FRow} {r0 : FRow}
    {rs : List FRow}
    (hfil : tbl.filter (fun w => decide (0 < w.rpm)) = r0 :: rs) :
    staticSolve dInch maxM target tbl = .ok
      ({ rpm := npInterp target
            (((r0 :: rs).map FRow.T).zip ((r0 :: rs).map FRow.rpm)),
         thrust := target,
         torque := npInterp (npInterp target
            (((r0 :: rs).map FRow.T).zip ((r0 :: rs).map FRow.rpm)))
            (((r0 :: rs).map FRow.rpm).zip ((r0 :: rs).map FRow.Q)),
         power := npInterp (npInterp target
            (((r0 :: rs).map FRow.T).zip ((r0 :: rs).map FRow.rpm)))
            (((r0 :: rs).map FRow.rpm).zip ((r0 :: rs).map FRow.P)),
         flightSpeed := 0, advRat := 0,
         ct := npInterp (npInterp target
            (((r0 :: rs).map FRow.T).zip ((r0 :: rs).map FRow.rpm)))
            (((r0 :: rs).map FRow.rpm).zip ((r0 :: rs).map FRow.CT)),
         cp := npInterp (npInterp target
            (((r0 :: rs).map FRow.T).zip ((r0 :: rs).map FRow.rpm)))
            (((r0 :: rs).map FRow.rpm).zip ((r0 :: rs).map FRow.CP)),
         eff := 0, diaInches := dInch, maxMech := maxM, isStatic := true },
       (if target < listMin ((r0 :: rs).map FRow.T) then [Warning.targetBelowMin]
        else if listMax ((r0 :: rs).map FRow.T) < target then [Warning.targetAboveMax]
        else []) ++
       (if maxM < npInterp target
            (((r0 :: rs).map FRow.T).zip ((r0 :: rs).map FRow.rpm)) then
          [Warning.rpmExceedsMax]
        else [])) := by
  simp only [staticSolve, hfil]

/-- A successful table lookup makes the key present. -/
theorem lookup_present {data : List (ℚ × List FRow)} {k : ℚ} {tbl : List FRow}
    (h : lookupTbl data k = some tbl) :
    data.any (fun p => p.1 == k) = true := by
  unfold lookupTbl at h
  cases hfind : data.find? (fun p => p.1 == k) with
  | none => rw [hfind] at h; simp at h
  | some pr =>
    exact List.any_eq_true.2 ⟨pr, List.mem_of_find?_eq_some hfind,
      (List.find?_eq_some.1 hfind).1⟩

/-- With the airspeed-0 key present, a zero-speed query dispatches to the
static solver. -/
theorem findOperatingPoint_static {f : FitFns} {dInch maxM : ℚ}
    {data : List (ℚ × List FRow)} {target : ℚ} {tbl : List FRow}
    (hlook : lookupTbl data 0 = some tbl) :
    findOperatingPoint f dInch maxM data target 0 =
      (staticSolve dInch maxM target tbl).map (fun r => (r.1, r.2)) := by
  unfold findOperatingPoint
  rw [lookup_present hlook]
  simp only [eq_self_iff_true, if_true, ite_true, hlook, List.nil_append]

/-- C3 (confirmed): static-regime inversion.  When thrust is strictly
increasing with RPM over the rows with rpm > 0 of the airspeed-0 table,
solving for the tabulated thrust of the k-th such row at flight speed 0
returns an operating point whose rpm is exactly that row's rpm (the
piecewise-linear inversion of RPM against thrust hits the knot exactly;
in exact arithmetic the numerical tolerance is 0). -/
theorem C3_static_inversion (f : FitFns) (dInch maxM : ℚ)
    (data : List (ℚ × List FRow)) (tbl : List FRow)
    (hlook : lookupTbl data 0 = some tbl)
    (hmono : List.Pairwise (· < ·)
      ((tbl.filter (fun w => decide (0 < w.rpm))).map FRow.T))
    (k : ℕ) (hk : k < (tbl.filter (fun w => decide (0 < w.rpm))).length) :
    ∃ op ws, findOperatingPoint f dInch maxM data
        (((tbl.filter (fun w => decide (0 < w.rpm))).get ⟨k, hk⟩).T) 0 =
          .ok (op, ws) ∧
      op.rpm = ((tbl.filter (fun w => decide (0 < w.rpm))).get ⟨k, hk⟩).rpm := by
  rw [findOperatingPoint_static hlook]
  rcases hfil : tbl.filter (fun w => decide (0 < w.rpm)) with _ | ⟨r0, rs⟩
  · rw [hfil] at hk
    simp at hk
  · have hk' : k < (r0 :: rs).length := hfil ▸ hk
    have hget : (tbl.filter (fun w => decide (0 < w.rpm))).get ⟨k, hk⟩ =
        (r0 :: rs).get ⟨k, hk'⟩ := List.get_of_eq hfil _
    rw [staticSolve_eq hfil, hget]
    refine ⟨_, _, rfl, ?_⟩
    have hkT : k < ((r0 :: rs).map FRow.T).length := by
      rw [List.length_map]; exact hk'
    have hkR : k < ((r0 :: rs).map FRow.rpm).length := by
      rw [List.length_map]; exact hk'
    have hmono' : List.Pairwise (· < ·) ((r0 :: rs).map FRow.T) := by
      rw [← hfil]; exact hmono
    have hTk : ((r0 :: rs).get ⟨k, hk'⟩).T = ((r0 :: rs).map FRow.T).get ⟨k, hkT⟩ := by
      rw [List.get_map]
    show npInterp ((r0 :: rs).get ⟨k, hk'⟩).T
        (((r0 :: rs).map FRow.T).zip ((r0 :: rs).map FRow.rpm)) =
      ((r0 :: rs).get ⟨k, hk'⟩).rpm
    rw [hTk, npInterp_knot _ _ hmono' k hkT hkR, List.get_map]

set_option maxRecDepth 200000 in
set_option maxHeartbeats 4000000 in
/-- C3 witness: the static inversion on a concrete dataset, recovering the
second tabulated row's rpm (20) from its thrust (2 N). -/
theorem C3_witness :
    lookupTbl staticData 0 = some staticTbl ∧
    List.Pairwise (· < ·)
      ((staticTbl.filter (fun w => decide (0 < w.rpm))).map FRow.T) ∧
    ((staticTbl.filter (fun w => decide (0 < w.rpm))).get
      ⟨1, by with_unfolding_all decide⟩).T = 2 ∧
    ((staticTbl.filter (fun w => decide (0 < w.rpm))).get
      ⟨1, by with_unfolding_all decide⟩).rpm = 20 ∧
    ∃ op ws, findOperatingPoint trivFits 10 10000 staticData
        (((staticTbl.filter (fun w => decide (0 < w.rpm))).get
          ⟨1, by with_unfolding_all decide⟩).T) 0 = .ok (op, ws) ∧
      op.rpm = ((staticTbl.filter (fun w => decide (0 < w.rpm))).get
          ⟨1, by with_unfolding_all decide⟩).rpm := by
  have h1 : lookupTbl staticData 0 = some staticTbl := by
    with_unfolding_all decide
  have h2 : List.Pairwise (· < ·)
      ((staticTbl.filter (fun w => decide (0 < w.rpm))).map FRow.T) := by
    with_unfolding_all decide
  refine ⟨h1, h2, by with_unfolding_all decide, by with_unfolding_all decide, ?_⟩
  exact C3_static_inversion trivFits 10 10000 staticData staticTbl h1 h2 1
    (by with_unfolding_all decide)

/-- Inversion of a successful forward-flight solve: every intermediate
step succeeded and the returned record and warnings are exactly the ones
the code builds. -/
theorem forwardSolve_ok_inv {f : FitFns} {dInch maxM target speed : ℚ}
    {tbl : List FRow} {op : OperatingPoint} {ws : List Warning}
    (hok : forwardSolve f dInch maxM target speed tbl = .ok (op, ws)) :
    ∃ i0 pT pQ pP rr,
      onsetIdx tbl = some i0 ∧
      ¬ ((fitWindow maxM tbl (((tbl[i0]?).map FRow.rpm).getD 0)).map FRow.rpm).length < 4 ∧
      f.fit2 ((fitWindow maxM tbl (((tbl[i0]?).map FRow.rpm).getD 0)).map FRow.rpm)
        ((fitWindow maxM tbl (((tbl[i0]?).map FRow.rpm).getD 0)).map FRow.T) = some pT ∧
      f.fit2 ((fitWindow maxM tbl (((tbl[i0]?).map FRow.rpm).getD 0)).map FRow.rpm)
        ((fitWindow maxM tbl (((tbl[i0]?).map FRow.rpm).getD 0)).map FRow.Q) = some pQ ∧
      f.fit3 ((fitWindow maxM tbl (((tbl[i0]?).map FRow.rpm).getD 0)).map FRow.rpm)
        ((fitWindow maxM tbl (((tbl[i0]?).map FRow.rpm).getD 0)).map FRow.P) = some pP ∧
      ¬ rr < 0 ∧
      op = { rpm := rr, thrust := poly2 pT rr, torque := poly2 pQ rr,
             power := poly3 pP rr, flightSpeed := speed,
             advRat := npInterp rr
               (((fitWindow maxM tbl (((tbl[i0]?).map FRow.rpm).getD 0)).map FRow.rpm).zip
                 ((fitWindow maxM tbl (((tbl[i0]?).map FRow.rpm).getD 0)).map FRow.J)),
             ct := npInterp rr
               (((fitWindow maxM tbl (((tbl[i0]?).map FRow.rpm).getD 0)).map FRow.rpm).zip
                 ((fitWindow maxM tbl (((tbl[i0]?).map FRow.rpm).getD 0)).map FRow.CT)),
             cp := npInterp rr
               (((fitWindow maxM tbl (((tbl[i0]?).map FRow.rpm).getD 0)).map FRow.rpm).zip
                 ((fitWindow maxM tbl (((tbl[i0]?).map FRow.rpm).getD 0)).map FRow.CP)),
             eff := npInterp rr
               (((fitWindow maxM tbl (((tbl[i0]?).map FRow.rpm).getD 0)).map FRow.rpm).zip
                 ((fitWindow maxM tbl (((tbl[i0]?).map FRow.rpm).getD 0)).map FRow.eta)),
             diaInches := dInch, maxMech := maxM, isStatic := false } ∧
      ws = (if listMax ((fitWindow maxM tbl (((tbl[i0]?).map FRow.rpm).getD 0)).map FRow.T)
              * (11 / 10) < target then [Warning.targetAboveMax]
            else if target <
                listMin ((fitWindow maxM tbl (((tbl[i0]?).map FRow.rpm).getD 0)).map FRow.T) then
              [Warning.targetBelowMin]
            else []) ++
           (if maxM * (12 / 10) < rr then [Warning.rpmExceedsMax] else []) := by
  cases hon : onsetIdx tbl with
  | none =>
    rw [forwardSolve, hon] at hok
    simp at hok
  | some i0 =>
    rw [forwardSolve, hon] at hok
    simp only at hok
    split at hok
    · simp at hok
    · rename_i hlen
      split at hok
      · rename_i pT pQ pP hfT hfQ hfP
        split at hok
        · simp at hok
        · rename_i rr hroot
          split at hok
          · simp at hok
          · rename_i hrr
            rw [Except.ok.injEq, Prod.mk.injEq] at hok
            exact ⟨i0, pT, pQ, pP, rr, rfl, hlen, hfT, hfQ, hfP, hrr,
              hok.1.symm, hok.2.symm⟩
      · simp at hok

/-- A failed forward-flight solve fails with one of the five hard-failure
branches of the code. -/
theorem forwardSolve_error_inv {f : FitFns} {dInch maxM target speed : ℚ}
    {tbl : List FRow} {e : SolveError}
    (he : forwardSolve f dInch maxM target speed tbl = .error e) :
    e = .noPositiveThrustData ∨ e = .insufficientFittingData ∨
      e = .curveFitFailed ∨ e = .rootFindingDiverged ∨ e = .negativeRpm := by
  cases hon : onsetIdx tbl with
  | none =>
    rw [forwardSolve, hon] at he
    rw [Except.error.injEq] at he
    exact Or.inl he.symm
  | some i0 =>
    rw [forwardSolve, hon] at he
    simp only at he
    split at he
    · rw [Except.error.injEq] at he
      exact Or.inr (Or.inl he.symm)
    · split at he
      · split at he
        · rw [Except.error.injEq] at he
          exact Or.inr (Or.inr (Or.inr (Or.inl he.symm)))
        · split at he
          · rw [Except.error.injEq] at he
            exact Or.inr (Or.inr (Or.inr (Or.inr he.symm)))
          · simp at he
      · rw [Except.error.injEq] at he
        exact Or.inr (Or.inr (Or.inl he.symm))

theorem sigP_lt {tbl : List FRow} {i : ℕ} (h : sigP tbl i = true) :
    i < tbl.length := by
  unfold sigP at h
  cases hg : tbl[i]? with
  | none => rw [hg] at h; simp at h
  | some w => exact (List.getElem?_eq_some_iff.1 hg).1

theorem posP_lt {tbl : List FRow} {i : ℕ} (h : posP tbl i = true) :
    i < tbl.length := by
  unfold posP at h
  cases hg : tbl[i]? with
  | none => rw [hg] at h; simp at h
  | some w => exact (List.getElem?_eq_some_iff.1 hg).1

/-- C5 (amended): the onset of the forward-flight fitting window is the
lowest index with rpm > 0 and thrust above 0.1 N admitting a consistent
look-ahead run; when no such index admits a run, the onset falls back to
the lowest index with rpm > 0 *and thrust above 0.1 N* (not, as the claim
states, the first strictly-positive-thrust sample — see
`C5_counterexample`); only when no sample exceeds the threshold at all does
it fall back to the first sample with rpm > 0 and thrust > 0; and the
solver fails with NoPositiveThrustData exactly when no rpm > 0 sample has
thrust above the threshold and none has positive thrust. -/
theorem C5_onset_rule (f : FitFns) (dInch maxM target speed : ℚ)
    (tbl : List FRow) :
    (∀ hex : ∃ i, sigP tbl i = true ∧ runOk tbl i = true,
      onsetIdx tbl = some (Nat.find hex)) ∧
    ((¬ ∃ i, sigP tbl i = true ∧ runOk tbl i = true) →
      ∀ hsig : ∃ i, sigP tbl i = true, onsetIdx tbl = some (Nat.find hsig)) ∧
    ((¬ ∃ i, sigP tbl i = true) →
      ∀ hpos : ∃ i, posP tbl i = true, onsetIdx tbl = some (Nat.find hpos)) ∧
    (forwardSolve f dInch maxM target speed tbl = .error .noPositiveThrustData ↔
      (∀ i, ¬ sigP tbl i = true) ∧ (∀ i, ¬ posP tbl i = true)) := by
  refine ⟨?_, ?_, ?_, ?_⟩
  · intro hex
    have hfind : (sigIdx tbl).find? (runOk tbl) = some (Nat.find hex) :=
      find?_filter_range_eq_natFind (fun i h => sigP_lt h) hex
    unfold onsetIdx
    cases hsig : sigIdx tbl with
    | nil => rw [hsig] at hfind; simp at hfind
    | cons s0 rest =>
      rw [hsig] at hfind
      simp only [hfind]
  · intro hnorun hsig
    have hnone : (sigIdx tbl).find? (runOk tbl) = none := by
      rw [List.find?_eq_none]
      intro i hi hrun
      exact hnorun ⟨i, (List.mem_filter.1 hi).2, hrun⟩
    have hhead : (sigIdx tbl).head? = some (Nat.find hsig) :=
      head?_filter_range_eq_natFind (fun i h => sigP_lt h) hsig
    unfold onsetIdx
    cases hcase : sigIdx tbl with
    | nil => rw [hcase] at hhead; simp at hhead
    | cons s0 rest =>
      rw [hcase] at hnone hhead
      simp only [hnone]
      simpa using hhead
  · intro hnosig hpos
    have hempty : sigIdx tbl = [] := by
      unfold sigIdx
      rw [List.filter_eq_nil]
      intro i _ hi
      exact hnosig ⟨i, hi⟩
    unfold onsetIdx
    rw [hempty]
    exact head?_filter_range_eq_natFind (fun i h => posP_lt h) hpos
  · constructor
    · intro he
      have hon : onsetIdx tbl = none := by
        cases hon : onsetIdx tbl with
        | none => rfl
        | some i0 =>
          exfalso
          rw [forwardSolve, hon] at he
          simp only at he
          split at he
          · simp at he
          · split at he
            · split at he
              · simp at he
              · split at he
                · simp at he
                · simp at he
            · simp at he
      unfold onsetIdx at hon
      constructor
      · intro i hi
        cases hcase : sigIdx tbl with
        | nil =>
          have : i ∈ sigIdx tbl := by
            unfold sigIdx
            exact List.mem_filter.2 ⟨List.mem_range.2 (sigP_lt hi), hi⟩
          rw [hcase] at this
          simp at this
        | cons s0 rest =>
          rw [hcase] at hon
          simp only at hon
          split at hon <;> simp at hon
      · intro i hi
        cases hcase : sigIdx tbl with
        | nil =>
          rw [hcase] at hon
          simp only at hon
          have : i ∈ posIdx tbl := by
            unfold posIdx
            exact List.mem_filter.2 ⟨List.mem_range.2 (posP_lt hi), hi⟩
          cases hpos : posIdx tbl with
          | nil => rw [hpos] at this; simp at this
          | cons p0 prest => rw [hpos] at hon; simp at hon
        | cons s0 rest =>
          rw [hcase] at hon
          simp only at hon
          split at hon <;> simp at hon
    · intro ⟨hnosig, hnopos⟩
      have hsige : sigIdx tbl = [] := by
        unfold sigIdx
        rw [List.filter_eq_nil]
        intro i _ hi
        exact hnosig i hi
      have hpose : posIdx tbl = [] := by
        unfold posIdx
        rw [List.filter_eq_nil]
        intro i _ hi
        exact hnopos i hi
      have hon : onsetIdx tbl = none := by
        unfold onsetIdx
        rw [hsige, hpose]
        rfl
      rw [forwardSolve, hon]

set_option maxRecDepth 200000 in
set_option maxHeartbeats 4000000 in
/-- C5 counterexample: on a table with thrust 0, 0.05, 0.2, −1 no index
admits a consistent run; the code then falls back to index 2 (first above
the 0.1 N threshold, rpm 20), while the claim's fallback — the first
strictly-positive-thrust sample — is index 1 (rpm 10). -/
theorem C5_counterexample :
    onsetIdx c5tbl = some 2 ∧ claimOnsetC5 c5tbl = some 1 ∧
      ((c5tbl[2]?).map FRow.rpm).getD 0 = 20 ∧
      ((c5tbl[1]?).map FRow.rpm).getD 0 = 10 ∧
      (0 : ℚ) < thrustAt c5tbl 1 ∧ thrustAt c5tbl 1 ≤ 1 / 10 := by
  with_unfolding_all decide

set_option maxRecDepth 200000 in
set_option maxHeartbeats 4000000 in
/-- C5 witness: the amended onset rule evaluated on a concrete table whose
least consistent-run index is 1. -/
theorem C5_witness :
    (∃ i, sigP fwdTbl i = true ∧ runOk fwdTbl i = true) ∧
      onsetIdx fwdTbl = some 1 := by
  have hex : ∃ i, sigP fwdTbl i = true ∧ runOk fwdTbl i = true :=
    ⟨1, by with_unfolding_all decide⟩
  have h := (C5_onset_rule trivFits 10 10000 2 1 fwdTbl).1 hex
  have h1 : Nat.find hex = 1 := by
    rw [Nat.find_eq_iff]
    refine ⟨by with_unfolding_all decide, ?_⟩
    intro n hn
    interval_cases n
    with_unfolding_all decide
  rw [h1] at h
  exact ⟨hex, h⟩

/-- C6 (amended): whenever the max mechanical rpm and the reduced ceiling
are both nonzero (both are Python truthiness tests in the code — see
`C6_counterexample` for max = 1000, where the ceiling silently disappears),
the fitting window is exactly the rows with rpm between the onset rpm and
max − 1000, and the solver fails with InsufficientFittingData exactly when
that window has fewer than 4 rows. -/
theorem C6_fitting_window (f : FitFns) (dInch maxM target speed : ℚ)
    (tbl : List FRow) (i0 : ℕ) (h0 : maxM ≠ 0) (h1 : maxM - 1000 ≠ 0)
    (hon : onsetIdx tbl = some i0) :
    fitWindow maxM tbl (((tbl[i0]?).map FRow.rpm).getD 0) =
      tbl.filter (fun w => decide ((((tbl[i0]?).map FRow.rpm).getD 0) ≤ w.rpm) &&
        decide (w.rpm ≤ maxM - 1000)) ∧
    (forwardSolve f dInch maxM target speed tbl = .error .insufficientFittingData ↔
      ((fitWindow maxM tbl (((tbl[i0]?).map FRow.rpm).getD 0)).map FRow.rpm).length < 4) := by
  constructor
  · unfold fitWindow
    rw [if_pos h0]
    simp only [if_pos h1]
  · constructor
    · intro he
      rw [forwardSolve, hon] at he
      simp only at he
      split at he
      · assumption
      · exfalso
        split at he
        · split at he
          · simp at he
          · split at he
            · simp at he
            · simp at he
        · simp at he
    · intro hlt
      rw [forwardSolve, hon]
      simp only [if_pos hlt]

set_option maxRecDepth 200000 in
set_option maxHeartbeats 4000000 in
/-- C6 counterexample: with max mechanical rpm equal to 1000, the reduced
ceiling max − 1000 = 0 is falsy, so the code applies no ceiling at all:
the claim's window (rpm ≤ 0) would have 0 < 4 rows and the solver should
fail with InsufficientFittingData, but it succeeds. -/
theorem C6_counterexample :
    onsetIdx fwdTbl = some 1 ∧
    ((fwdTbl[1]?).map FRow.rpm).getD 0 = 2 ∧
    (fwdTbl.filter (fun w => decide ((2 : ℚ) ≤ w.rpm) &&
      decide (w.rpm ≤ (1000 : ℚ) - 1000))).length < 4 ∧
    (fitWindow 1000 fwdTbl 2).length = 4 ∧
    (match forwardSolve trivFits 10 1000 2 1 fwdTbl with
      | .ok _ => true
      | .error _ => false) = true := by
  with_unfolding_all decide

set_option maxRecDepth 200000 in
set_option maxHeartbeats 4000000 in
/-- C6 witness: the amended window characterization at max mechanical rpm
10000 on a concrete table. -/
theorem C6_witness :
    (10000 : ℚ) ≠ 0 ∧ (10000 : ℚ) - 1000 ≠ 0 ∧ onsetIdx fwdTbl = some 1 ∧
    (fitWindow 10000 fwdTbl (((fwdTbl[1]?).map FRow.rpm).getD 0) =
      fwdTbl.filter (fun w => decide ((((fwdTbl[1]?).map FRow.rpm).getD 0) ≤ w.rpm) &&
        decide (w.rpm ≤ (10000 : ℚ) - 1000)) ∧
    (forwardSolve trivFits 10 10000 2 1 fwdTbl = .error .insufficientFittingData ↔
      ((fitWindow 10000 fwdTbl (((fwdTbl[1]?).map FRow.rpm).getD 0)).map FRow.rpm).length < 4)) := by
  refine ⟨by norm_num, by norm_num, by with_unfolding_all decide, ?_⟩
  exact C6_fitting_window trivFits 10 10000 2 1 fwdTbl 1 (by norm_num) (by norm_num)
    (by with_unfolding_all decide)

theorem mem_ite_singleton {α : Type} {c : Prop} [Decidable c] {a b : α} :
    (a ∈ (if c then [b] else [])) ↔ (c ∧ a = b) := by
  split <;> simp_all

theorem mem_ite_ite {α : Type} {c1 c2 : Prop} [Decidable c1] [Decidable c2]
    {a x y : α} :
    (a ∈ (if c1 then [x] else if c2 then [y] else [])) ↔
      ((c1 ∧ a = x) ∨ (¬ c1 ∧ c2 ∧ a = y)) := by
  split
  · simp_all
  · rw [mem_ite_singleton]
    simp_all

/-- C7 (amended): warnings never turn into failures, but the code's warning
conditions carry thresholds the claim omits.  Statically, a solve over a
table with at least one rpm > 0 row always returns an operating point,
warning when the target is below the minimum or above the maximum tabulated
thrust and when the solved rpm exceeds the max mechanical rpm.  A
forward-flight solve fails only with one of the five hard failures; on
success it warns about the target only above 1.1× the window's maximum
thrust (an out-of-range target between 1.0× and 1.1× earns no warning —
see `C7_counterexample`) or below its minimum, and warns about the solved
rpm only above 1.2× the max mechanical rpm. -/
theorem C7_warnings_vs_failures (f : FitFns) (dInch maxM target speed : ℚ)
    (tbl : List FRow) :
    (tbl.filter (fun w => decide (0 < w.rpm)) ≠ [] →
      ∃ op ws, staticSolve dInch maxM target tbl = .ok (op, ws) ∧
        (Warning.targetBelowMin ∈ ws ↔
          target < listMin ((tbl.filter (fun w => decide (0 < w.rpm))).map FRow.T)) ∧
        (Warning.targetAboveMax ∈ ws ↔
          (¬ target < listMin ((tbl.filter (fun w => decide (0 < w.rpm))).map FRow.T) ∧
            listMax ((tbl.filter (fun w => decide (0 < w.rpm))).map FRow.T) < target)) ∧
        (Warning.rpmExceedsMax ∈ ws ↔ maxM < op.rpm)) ∧
    (∀ e, forwardSolve f dInch maxM target speed tbl = .error e →
      e = .noPositiveThrustData ∨ e = .insufficientFittingData ∨
        e = .curveFitFailed ∨ e = .rootFindingDiverged ∨ e = .negativeRpm) ∧
    (∀ i0, onsetIdx tbl = some i0 →
      ∀ op ws, forwardSolve f dInch maxM target speed tbl = .ok (op, ws) →
        (Warning.targetAboveMax ∈ ws ↔
          listMax ((fitWindow maxM tbl (((tbl[i0]?).map FRow.rpm).getD 0)).map FRow.T)
            * (11 / 10) < target) ∧
        (Warning.targetBelowMin ∈ ws ↔
          (¬ listMax ((fitWindow maxM tbl (((tbl[i0]?).map FRow.rpm).getD 0)).map FRow.T)
              * (11 / 10) < target ∧
            target < listMin
              ((fitWindow maxM tbl (((tbl[i0]?).map FRow.rpm).getD 0)).map FRow.T))) ∧
        (Warning.rpmExceedsMax ∈ ws ↔ maxM * (12 / 10) < op.rpm)) := by
  refine ⟨?_, fun e he => forwardSolve_error_inv he, ?_⟩
  · intro hne
    rcases hfo : tbl.filter (fun w => decide (0 < w.rpm)) with _ | ⟨r0, rs⟩
    · exact absurd hfo hne
    · rw [hfo]
      refine ⟨_, _, staticSolve_eq hfo, ?_, ?_, ?_⟩
      · rw [List.mem_append, mem_ite_ite, mem_ite_singleton]
        simp
      · rw [List.mem_append, mem_ite_ite, mem_ite_singleton]
        simp
      · rw [List.mem_append, mem_ite_ite, mem_ite_singleton]
        simp
  · intro i0 hon op ws hok
    obtain ⟨i0', pT, pQ, pP, rr, hon', hlen, hfT, hfQ, hfP, hrr, hop, hws⟩ :=
      forwardSolve_ok_inv hok
    have hi : i0' = i0 := by
      rw [hon] at hon'
      exact (Option.some_inj.1 hon').symm
    subst hi
    have hrpm : op.rpm = rr := by rw [hop]
    subst hws
    rw [hrpm]
    refine ⟨?_, ?_, ?_⟩
    · rw [List.mem_append, mem_ite_ite, mem_ite_singleton]
      simp
    · rw [List.mem_append, mem_ite_ite, mem_ite_singleton]
      simp
    · rw [List.mem_append, mem_ite_ite, mem_ite_singleton]
      simp

set_option maxRecDepth 200000 in
set_option maxHeartbeats 4000000 in
/-- C7 counterexample: a forward-flight query whose target thrust 4.2 N
lies strictly above the fitted window's maximum thrust 4 N (but within the
code's silent 10% margin) returns an operating point with no warning at
all, although the claim says every out-of-range target produces one. -/
theorem C7_counterexample :
    listMax ((fitWindow 10000 fwdTbl (((fwdTbl[1]?).map FRow.rpm).getD 0)).map FRow.T)
        < (21 : ℚ) / 5 ∧
    onsetIdx fwdTbl = some 1 ∧
    (match findOperatingPoint trivFits 10 10000 fwdData (21 / 5) 1 with
      | .ok (_, ws) => ws == ([] : List Warning)
      | .error _ => false) = true := by
  with_unfolding_all decide

set_option maxRecDepth 200000 in
set_option maxHeartbeats 4000000 in
/-- C7 witness: the amended warning semantics evaluated on a concrete
static query whose target 5 N exceeds the tabulated maximum 3 N. -/
theorem C7_witness :
    staticTbl.filter (fun w => decide (0 < w.rpm)) ≠ [] ∧
    (∃ op ws, staticSolve 10 10000 5 staticTbl = .ok (op, ws) ∧
      (Warning.targetBelowMin ∈ ws ↔
        (5 : ℚ) < listMin ((staticTbl.filter (fun w => decide (0 < w.rpm))).map FRow.T)) ∧
      (Warning.targetAboveMax ∈ ws ↔
        (¬ (5 : ℚ) < listMin ((staticTbl.filter (fun w => decide (0 < w.rpm))).map FRow.T) ∧
          listMax ((staticTbl.filter (fun w => decide (0 < w.rpm))).map FRow.T) < 5)) ∧
      (Warning.rpmExceedsMax ∈ ws ↔ (10000 : ℚ) < op.rpm)) := by
  refine ⟨by with_unfolding_all decide, ?_⟩
  exact (C7_warnings_vs_failures trivFits 10 10000 5 1 staticTbl).1
    (by with_unfolding_all decide)

/-- C8 (confirmed): on every successful forward-flight solve, the returned
J, CT, CP and eta are the linear interpolation of the solved rpm against
the tabulated coefficient columns restricted to the fitting window — they
are not read off the fitted polynomials. -/
theorem C8_coefficients_from_data (f : FitFns) (dInch maxM target speed : ℚ)
    (tbl : List FRow) (op : OperatingPoint) (ws : List Warning) (i0 : ℕ)
    (hon : onsetIdx tbl = some i0)
    (hok : forwardSolve f dInch maxM target speed tbl = .ok (op, ws)) :
    op.advRat = npInterp op.rpm
      (((fitWindow maxM tbl (((tbl[i0]?).map FRow.rpm).getD 0)).map FRow.rpm).zip
        ((fitWindow maxM tbl (((tbl[i0]?).map FRow.rpm).getD 0)).map FRow.J)) ∧
    op.ct = npInterp op.rpm
      (((fitWindow maxM tbl (((tbl[i0]?).map FRow.rpm).getD 0)).map FRow.rpm).zip
        ((fitWindow maxM tbl (((tbl[i0]?).map FRow.rpm).getD 0)).map FRow.CT)) ∧
    op.cp = npInterp op.rpm
      (((fitWindow maxM tbl (((tbl[i0]?).map FRow.rpm).getD 0)).map FRow.rpm).zip
        ((fitWindow maxM tbl (((tbl[i0]?).map FRow.rpm).getD 0)).map FRow.CP)) ∧
    op.eff = npInterp op.rpm
      (((fitWindow maxM tbl (((tbl[i0]?).map FRow.rpm).getD 0)).map FRow.rpm).zip
        ((fitWindow maxM tbl (((tbl[i0]?).map FRow.rpm).getD 0)).map FRow.eta)) := by
  obtain ⟨i0', pT, pQ, pP, rr, hon', hlen, hfT, hfQ, hfP, hrr, hop, hws⟩ :=
    forwardSolve_ok_inv hok
  have hi : i0' = i0 := by
    rw [hon] at hon'
    exact (Option.some_inj.1 hon').symm
  subst hi
  rw [hop]
  exact ⟨rfl, rfl, rfl, rfl⟩

set_option maxRecDepth 200000 in
set_option maxHeartbeats 4000000 in
/-- C8 witness: coefficient sourcing on a concrete forward-flight solve. -/
theorem C8_witness :
    onsetIdx fwdTbl = some 1 ∧
    ∃ op ws, forwardSolve trivFits 10 10000 2 1 fwdTbl = .ok (op, ws) ∧
      op.advRat = npInterp op.rpm
        (((fitWindow 10000 fwdTbl (((fwdTbl[1]?).map FRow.rpm).getD 0)).map FRow.rpm).zip
          ((fitWindow 10000 fwdTbl (((fwdTbl[1]?).map FRow.rpm).getD 0)).map FRow.J)) ∧
      op.ct = npInterp op.rpm
        (((fitWindow 10000 fwdTbl (((fwdTbl[1]?).map FRow.rpm).getD 0)).map FRow.rpm).zip
          ((fitWindow 10000 fwdTbl (((fwdTbl[1]?).map FRow.rpm).getD 0)).map FRow.CT)) ∧
      op.cp = npInterp op.rpm
        (((fitWindow 10000 fwdTbl (((fwdTbl[1]?).map FRow.rpm).getD 0)).map FRow.rpm).zip
          ((fitWindow 10000 fwdTbl (((fwdTbl[1]?).map FRow.rpm).getD 0)).map FRow.CP)) ∧
      op.eff = npInterp op.rpm
        (((fitWindow 10000 fwdTbl (((fwdTbl[1]?).map FRow.rpm).getD 0)).map FRow.rpm).zip
          ((fitWindow 10000 fwdTbl (((fwdTbl[1]?).map FRow.rpm).getD 0)).map FRow.eta)) := by
  refine ⟨by with_unfolding_all decide, ?_⟩
  cases hres : forwardSolve trivFits 10 10000 2 1 fwdTbl with
  | error e =>
    have hs : (match forwardSolve trivFits 10 10000 2 1 fwdTbl with
        | .ok _ => true
        | .error _ => false) = true := by with_unfolding_all decide
    rw [hres] at hs
    simp at hs
  | ok pair =>
    exact ⟨pair.1, pair.2, by rw [← hres],
      C8_coefficients_from_data trivFits 10 10000 2 1 fwdTbl pair.1 pair.2 1
        (by with_unfolding_all decide)
        (by rw [hres] : forwardSolve trivFits 10 10000 2 1 fwdTbl = .ok (pair.1, pair.2))⟩

set_option maxRecDepth 200000 in
set_option maxHeartbeats 4000000 in
/-- C4 evaluation at the failing input: a static query whose target 4 N
exceeds the tabulated maximum 3 N is warned about and still answered, but
`np.interp` clamps the inverted rpm to the boundary value 30 — a linear
extrapolation of the last segment (thrust 2→3 N over 20→30 rpm) would
give 40 — even though the emitted warning says the result "will be
extrapolated". -/
theorem C4_out_of_range_clamps :
    (match findOperatingPoint trivFits 10 10000 staticData 4 0 with
      | .ok (op, ws) => op.rpm == 30 && op.thrust == 4 &&
          decide (Warning.targetAboveMax ∈ ws)
      | .error _ => false) = true := by
  with_unfolding_all decide

/-- C10 (confirmed): the thrust field of the result is asymmetric between
the regimes — a static solve echoes the caller's target verbatim, while a
forward-flight solve reports the fitted thrust quadratic evaluated at the
solved rpm. -/
theorem C10_thrust_field (f : FitFns) (dInch maxM target speed : ℚ)
    (tbl : List FRow) :
    (∀ op ws, staticSolve dInch maxM target tbl = .ok (op, ws) →
      op.thrust = target ∧ op.isStatic = true) ∧
    (∀ op ws, forwardSolve f dInch maxM target speed tbl = .ok (op, ws) →
      op.isStatic = false ∧ ∃ i0 pT, onsetIdx tbl = some i0 ∧
        f.fit2 ((fitWindow maxM tbl (((tbl[i0]?).map FRow.rpm).getD 0)).map FRow.rpm)
          ((fitWindow maxM tbl (((tbl[i0]?).map FRow.rpm).getD 0)).map FRow.T) = some pT ∧
        op.thrust = poly2 pT op.rpm) := by
  constructor
  · intro op ws hok
    rcases hfo : tbl.filter (fun w => decide (0 < w.rpm)) with _ | ⟨r0, rs⟩
    · rw [staticSolve, hfo] at hok
      simp at hok
    · rw [staticSolve_eq hfo] at hok
      rw [Except.ok.injEq, Prod.mk.injEq] at hok
      rw [← hok.1]
      exact ⟨rfl, rfl⟩
  · intro op ws hok
    obtain ⟨i0, pT, pQ, pP, rr, hon, hlen, hfT, hfQ, hfP, hrr, hop, hws⟩ :=
      forwardSolve_ok_inv hok
    refine ⟨by rw [hop], i0, pT, hon, hfT, ?_⟩
    rw [hop]

set_option maxRecDepth 200000 in
set_option maxHeartbeats 4000000 in
/-- C10 witness: the asymmetric thrust field on concrete static and
forward-flight solves. -/
theorem C10_witness :
    (∃ op ws, staticSolve 10 10000 (3 / 2) staticTbl = .ok (op, ws) ∧
      op.thrust = 3 / 2 ∧ op.isStatic = true) ∧
    (∃ op ws, forwardSolve trivFits 10 10000 2 1 fwdTbl = .ok (op, ws) ∧
      op.isStatic = false ∧ ∃ i0 pT, onsetIdx fwdTbl = some i0 ∧
        trivFits.fit2
          ((fitWindow 10000 fwdTbl (((fwdTbl[i0]?).map FRow.rpm).getD 0)).map FRow.rpm)
          ((fitWindow 10000 fwdTbl (((fwdTbl[i0]?).map FRow.rpm).getD 0)).map FRow.T) = some pT ∧
        op.thrust = poly2 pT op.rpm) := by
  constructor
  · cases hres : staticSolve 10 10000 ((3 : ℚ) / 2) staticTbl with
    | error e =>
      have hs : (match staticSolve 10 10000 ((3 : ℚ) / 2) staticTbl with
          | .ok _ => true
          | .error _ => false) = true := by with_unfolding_all decide
      rw [hres] at hs
      simp at hs
    | ok pair =>
      exact ⟨pair.1, pair.2, by rw [← hres],
        ((C10_thrust_field trivFits 10 10000 (3 / 2) 1 staticTbl).1 pair.1 pair.2
          (by rw [hres]))⟩
  · cases hres : forwardSolve trivFits 10 10000 2 1 fwdTbl with
    | error e =>
      have hs : (match forwardSolve trivFits 10 10000 2 1 fwdTbl with
          | .ok _ => true
          | .error _ => false) = true := by with_unfolding_all decide
      rw [hres] at hs
      simp at hs
    | ok pair =>
      exact ⟨pair.1, pair.2, by rw [← hres],
        ((C10_thrust_field trivFits 10 10000 2 1 fwdTbl).2 pair.1 pair.2
          (by rw [hres]))⟩

/-- A file whose name does not decode to an integer rpm contributes
nothing to the decoded file list. -/
theorem parsedFiles_skip (g : String × List RawRow)
    (hg : pyInt (stripDat g.1) = none) (fs1 fs2 : List (String × List RawRow)) :
    parsedFiles (fs1 ++ g :: fs2) = parsedFiles (fs1 ++ fs2) := by
  unfold parsedFiles
  rw [List.filter_append, List.filter_append, List.filter_cons]
  by_cases hdat : strEndsWith g.1 ".dat"
  · rw [if_pos hdat, List.filterMap_append, List.filterMap_append,
      List.filterMap_cons, hg]
    simp
  · rw [if_neg (by simp [hdat])]

/-- C9 (amended): the generator returns the (None, None) failure exactly
when the extracted diameter substring fails to parse as a float, or the
folder has no .dat files, or no .dat file name decodes to an integer rpm —
the D…P pattern as such is never validated (see `C9_counterexample`, where
an identifier with no P at all succeeds); and a single file whose name does
not decode to an integer rpm is skipped without affecting the result. -/
theorem C9_failure_semantics (interp2 interp3 : List (Option ℚ) → List (Option ℚ))
    (folderName : String) (files : List (String × List RawRow)) :
    (generate interp2 interp3 folderName files = none ↔
      (parseDiameter folderName = none ∨
       files.filter (fun g => strEndsWith g.1 ".dat") = [] ∨
       parsedFiles files = [])) ∧
    (∀ g fs1 fs2, pyInt (stripDat g.1) = none →
      generate interp2 interp3 folderName (fs1 ++ g :: fs2) =
        generate interp2 interp3 folderName (fs1 ++ fs2)) := by
  constructor
  · unfold generate
    cases hD : parseDiameter folderName with
    | none => simp
    | some D =>
      simp only
      constructor
      · intro h
        by_cases hdat : (files.filter (fun g => strEndsWith g.1 ".dat")).isEmpty
        · exact Or.inr (Or.inl (List.isEmpty_iff.1 hdat))
        · rw [if_neg (by simpa using hdat)] at h
          by_cases hpar : (parsedFiles files).isEmpty
          · exact Or.inr (Or.inr (List.isEmpty_iff.1 hpar))
          · rw [if_neg (by simpa using hpar)] at h
            simp at h
      · intro h
        rcases h with h | h | h
        · simp at h
        · rw [if_pos (by simp [h])]
        · by_cases hdat : (files.filter (fun g => strEndsWith g.1 ".dat")).isEmpty
          · rw [if_pos (by simpa using hdat)]
          · rw [if_neg (by simpa using hdat), if_pos (by simp [h])]
  · intro g fs1 fs2 hgnone
    have hpar := parsedFiles_skip g hgnone fs1 fs2
    unfold generate
    cases parseDiameter folderName with
    | none => rfl
    | some D =>
      simp only
      by_cases hdat : strEndsWith g.1 ".dat"
      · have hfil : (fs1 ++ g :: fs2).filter (fun h => strEndsWith h.1 ".dat") =
            fs1.filter (fun h => strEndsWith h.1 ".dat") ++
              g :: fs2.filter (fun h => strEndsWith h.1 ".dat") := by
          rw [List.filter_append, List.filter_cons, if_pos hdat]
        have hwd : ¬ ((fs1 ++ g :: fs2).filter
            (fun h => strEndsWith h.1 ".dat")).isEmpty = true := by
          rw [hfil]
          simp
        rw [if_neg hwd, hpar]
        by_cases hre : ((fs1 ++ fs2).filter (fun h => strEndsWith h.1 ".dat")).isEmpty
        · rw [if_pos hre]
          have hpe : parsedFiles (fs1 ++ fs2) = [] := by
            unfold parsedFiles
            rw [List.isEmpty_iff.1 hre]
            rfl
          rw [if_pos (by simp [hpe])]
        · rw [if_neg hre]
      · have hfil : (fs1 ++ g :: fs2).filter (fun h => strEndsWith h.1 ".dat") =
            (fs1 ++ fs2).filter (fun h => strEndsWith h.1 ".dat") := by
          rw [List.filter_append, List.filter_cons, if_neg (by simp [hdat]),
            ← List.filter_append]
        rw [hfil, hpar]

set_option maxRecDepth 200000 in
set_option maxHeartbeats 4000000 in
/-- C9 counterexample: the identifier "D10" contains no P at all, hence no
D…P pattern, yet the diameter parses (`split('P')[0][1:]` is "10") and the
generator returns a dataset rather than the (None, None) failure the claim
requires. -/
theorem C9_counterexample :
    (¬ 'P' ∈ "D10".data) ∧
    (generate idCol idCol "D10" [("1000.dat", tinyRows)]).isSome = true := by
  with_unfolding_all decide

set_option maxRecDepth 200000 in
set_option maxHeartbeats 4000000 in
/-- C9 witness: skipping a file whose name does not decode to an integer
rpm leaves the generator's result unchanged. -/
theorem C9_witness :
    pyInt (stripDat "bad.dat") = none ∧
    generate idCol idCol "D10P" ([("1000.dat", tinyRows)] ++ ("bad.dat", tinyRows) :: []) =
      generate idCol idCol "D10P" ([("1000.dat", tinyRows)] ++ []) := by
  refine ⟨by with_unfolding_all decide, ?_⟩
  exact (C9_failure_semantics idCol idCol "D10P" []).2 ("bad.dat", tinyRows)
    [("1000.dat", tinyRows)] [] (by with_unfolding_all decide)

end APC
